import Mathlib

/-!
Verification of the orchestration core of the Agentic PDF Translator
repository: the routing function (src/workflow/routing.py), the supervisor
loop (src/agents/master_agent.py), and the workflow state record
(src/models/workflow_state.py).

The shallow embedding models the mutable Python state object as a Lean
structure threaded through pure functions.  Step workers are modelled as
arbitrary functions from the state to either a result record or a raised
exception message (Except), matching the worker contract: the orchestrator
only inspects a fixed set of result fields, so the result record carries
exactly those.  Wall-clock time is abstracted: the SLA monitor becomes an
arbitrary boolean function of the loop iteration index, and timestamps
become set/unset flags.  Persistence (state_manager.save) and the progress
callback are observers that never feed back into the loop and are not
modelled.
-/

namespace PdfTranslator

/-- WorkflowStatus enum from src/models/workflow_state.py. -/
inductive WorkflowStatus where
  | pending
  | in_progress
  | completed
  | failed
  | paused
deriving DecidableEq, Repr

/-- String value of the status enum (str Enum in Python). -/
def WorkflowStatus.value : WorkflowStatus → String
  | .pending => "pending"
  | .in_progress => "in_progress"
  | .completed => "completed"
  | .failed => "failed"
  | .paused => "paused"

/-- One timeline event as appended by MasterAgent._emit_event.  The
timestamp is wall-clock data and is not modelled. -/
structure Event where
  step : String
  status : String
  level : String
  message : String
deriving DecidableEq, Repr

/-- The shared workflow state (src/models/workflow_state.py, class
WorkflowState).  Fields the orchestrator never reads (normalized_request,
execution_plan payload, agent_timings, events payload consumers) are kept
only where a claim needs them.  The dict fields qa_result and judge_result
are modelled by the only keys the orchestration core reads:
qa_result.get("status") and judge_result.get("action"), as optional string
values (none models a missing key; enum values are modelled by their string
value, since QAStatus is a str Enum).  start_time/end_time are modelled by
an end_time_set flag (start_time is always set at loop start). -/
structure WorkflowState where
  source_language : String := "en"
  target_language : String := "es"
  document_type : String := "legal"
  page_count : Int := 1
  raw_text : String := ""
  status : WorkflowStatus := .pending
  run_status : String := "pending"
  current_agent : Option String := none
  execution_plan : List String := []
  route_history : List String := []
  step_status : List (String × String) := []
  events : List Event := []
  translation_output : Option String := none
  translation_method : Option String := none
  qa_result_status : Option String := none
  judge_result_action : Option String := none
  retry_count : Nat := 0
  max_retries : Nat := 1
  end_time_set : Bool := false
  parallel_execution : Bool := false
  requested_real_llm : Bool := false
  requires_approval : Bool := false
  approval_granted : Option Bool := none
  pause_reason : Option String := none
  force_qa_fail_once : Bool := false
  errors : List String := []
  warnings : List String := []
deriving DecidableEq, Repr

instance : Inhabited WorkflowState := ⟨{}⟩

/-- WorkflowState.add_error: append with duplicate suppression. -/
def addError (s : WorkflowState) (message : String) : WorkflowState :=
  if message ∈ s.errors then s else { s with errors := s.errors ++ [message] }

/-- WorkflowState.add_warning: append with duplicate suppression. -/
def addWarning (s : WorkflowState) (message : String) : WorkflowState :=
  if message ∈ s.warnings then s else { s with warnings := s.warnings ++ [message] }

/-- Association-list update modelling Python dict assignment
(WorkflowState.set_step_status). -/
def updateAssoc : List (String × String) → String → String → List (String × String)
  | [], k, v => [(k, v)]
  | (k2, v2) :: rest, k, v =>
      if k2 = k then (k, v) :: rest else (k2, v2) :: updateAssoc rest k v

/-- Association-list lookup modelling Python dict read. -/
def lookupAssoc : List (String × String) → String → Option String
  | [], _ => none
  | (k2, v2) :: rest, k => if k2 = k then some v2 else lookupAssoc rest k

/-- WorkflowState.set_step_status. -/
def setStepStatus (s : WorkflowState) (step status : String) : WorkflowState :=
  { s with step_status := updateAssoc s.step_status step status }

/-- WorkflowState.add_event via MasterAgent._emit_event. -/
def addEvent (s : WorkflowState) (step status level message : String) : WorkflowState :=
  { s with events := s.events ++ [⟨step, status, level, message⟩] }

/-- ASCII lowercase of one character (the step results the orchestrator
lowercases are ASCII action/status words). -/
def charLower (c : Char) : Char :=
  if 65 ≤ c.toNat ∧ c.toNat ≤ 90 then Char.ofNat (c.toNat + 32) else c

/-- Python str.lower() on the ASCII strings the orchestrator inspects. -/
def strLower (s : String) : String := ⟨s.data.map charLower⟩

/-- Python `x or d` on an optional string: None and the empty string are
falsy. -/
def orStr (o : Option String) (d : String) : String :=
  match o with
  | some v => if v = "" then d else v
  | none => d

/-- MasterAgent._qa_failed: read qa_result.get("status"); an enum value
compares by its string value, any other value goes through
str(...).lower() == "fail".  A missing key gives str(None).lower() =
"none", which is not "fail". -/
def qaFailed (s : WorkflowState) : Bool :=
  match s.qa_result_status with
  | none => false
  | some v => strLower v = "fail"

/-- determine_next_step from src/workflow/routing.py.  The comparison
`qa_status == QAStatus.FAIL` on a str Enum holds exactly for the enum
member or the exact string "fail". -/
def determine_next_step (current_step : String) (state : WorkflowState) : String :=
  if current_step = "intake" then "planner"
  else if current_step = "planner" then
    if state.requires_approval ∧ state.approval_granted = none then "pause_for_approval"
    else "execution"
  else if current_step = "execution" then "qa"
  else if current_step = "qa" then
    if state.qa_result_status = some "fail" ∧ state.retry_count < state.max_retries then
      "execution"
    else "judge"
  else if current_step = "judge" then
    if strLower (state.judge_result_action.getD "accept") = "retry"
        ∧ state.retry_count < state.max_retries then
      "execution"
    else "delivery"
  else if current_step = "delivery" then "end"
  else "end"

/-- MasterAgent._retry_condition.  Note the judge branch defaults the
missing action to the empty string, unlike the router which defaults to
"accept". -/
def retryCondition (previous_step : Option String) (s : WorkflowState) : Bool :=
  if previous_step = some "qa" then qaFailed s
  else if previous_step = some "judge" then
    strLower (s.judge_result_action.getD "") = "retry"
  else false

/-- MasterAgent._derive_run_status. -/
def deriveRunStatus (s : WorkflowState) : String :=
  if s.status = .failed then "failed"
  else if s.status = .paused then "paused"
  else
    if s.errors ≠ [] ∨ s.warnings ≠ [] ∨ qaFailed s = true
        ∨ strLower (s.judge_result_action.getD "accept") ≠ "accept"
        ∨ s.retry_count > 0 then
      "completed_with_warnings"
    else "completed"

/-- The result record a worker returns.  Per the worker contract the
orchestrator inspects only these fields of the returned dict
(MasterAgent._merge_result); everything else is opaque payload.  Defaults
model missing dict keys. -/
structure StepResult where
  plan : List String := []
  requires_approval : Bool := false
  approval_reason : Option String := none
  translation : String := ""
  method : Option String := none
  qa_status : Option String := none
  judge_action : Option String := none
  judge_score : String := "n/a"

/-- MasterAgent._merge_result.  The intake result (normalized_request) and
the delivery result (final_output) are opaque payload the loop never reads
back, so merging them leaves the modelled fields unchanged except where
noted. -/
def mergeResult (state : WorkflowState) (agent_name : String) (result : StepResult) :
    WorkflowState :=
  if agent_name = "intake" then
    state
  else if agent_name = "planner" then
    let state := { state with
      execution_plan := result.plan,
      requires_approval := result.requires_approval }
    match result.approval_reason with
    | some reason => if reason = "" then state else { state with pause_reason := some reason }
    | none => state
  else if agent_name = "execution" then
    let state := { state with
      translation_output := some result.translation,
      translation_method := result.method }
    if state.translation_method = some "mock" ∧ state.requested_real_llm = true then
      addWarning state "Mock translation path used."
    else state
  else if agent_name = "qa" then
    let state := { state with qa_result_status := result.qa_status }
    if qaFailed state then
      addWarning state "QA check failed. Workflow may retry or require review."
    else state
  else if agent_name = "judge" then
    let state := { state with judge_result_action := result.judge_action }
    let action := strLower (result.judge_action.getD "")
    if action = "retry" then
      addWarning state
        ("Judge requested action: " ++ action ++ " (score=" ++ result.judge_score ++ ").")
    else state
  else if agent_name = "delivery" then
    state
  else state

/-- The worker registry wired up in src/workflow/orchestrator.py: one
worker per fixed step name.  A worker is a function of the state returning
a result record or raising (Except.error carries str(exc)). -/
structure Workers where
  intake : WorkflowState → Except String StepResult
  planner : WorkflowState → Except String StepResult
  execution : WorkflowState → Except String StepResult
  qa : WorkflowState → Except String StepResult
  judge : WorkflowState → Except String StepResult
  delivery : WorkflowState → Except String StepResult

/-- Dict lookup self.worker_agents[agent_name]. -/
def Workers.get (w : Workers) (name : String) :
    Option (WorkflowState → Except String StepResult) :=
  if name = "intake" then some w.intake
  else if name = "planner" then some w.planner
  else if name = "execution" then some w.execution
  else if name = "qa" then some w.qa
  else if name = "judge" then some w.judge
  else if name = "delivery" then some w.delivery
  else none

/-- The step names registered at orchestrator construction. -/
def stepNames : List String :=
  ["intake", "planner", "execution", "qa", "judge", "delivery"]

/-- MasterAgent._refresh_delivery_metadata only rewrites the final_output
payload (metadata and its status mirror), which the loop never reads back;
no modelled field changes. -/
def refreshDeliveryMetadata (s : WorkflowState) : WorkflowState := s

/-- The bookkeeping MasterAgent._execute_step performs before invoking the
worker: set current_agent, mark the step in progress, emit the started
event. -/
def stepBegin (agent_name : String) (state : WorkflowState) : WorkflowState :=
  addEvent (setStepStatus { state with current_agent := some agent_name }
    agent_name "in_progress") agent_name "in_progress" "info" (agent_name ++ " started.")

/-- The bookkeeping after a successful worker call: merge the result, mark
the step completed, emit the completed event. -/
def stepFinish (agent_name : String) (state : WorkflowState) (result : StepResult) :
    WorkflowState :=
  addEvent (setStepStatus (mergeResult state agent_name result) agent_name "completed")
    agent_name "completed" "info" (agent_name ++ " completed.")

/-- MasterAgent._execute_step.  On worker failure the exception propagates
carrying the state as mutated so far (step_status set to failed).
agent_timings is wall-clock data and not modelled; event messages elide the
elapsed-seconds figure. -/
def executeStep (w : Workers) (agent_name : String) (state : WorkflowState) :
    Except (String × WorkflowState) WorkflowState :=
  match w.get agent_name with
  | none => .error ("Unknown agent: " ++ agent_name, state)
  | some worker =>
    let state := stepBegin agent_name state
    match worker state with
    | .error msg =>
      .error (msg, addEvent (setStepStatus state agent_name "failed") agent_name
        "failed" "error" msg)
    | .ok result =>
      let state := stepFinish agent_name state result
      .ok (if agent_name = "delivery" then refreshDeliveryMetadata state else state)

/-- The retry gate condition at the top of the supervisor loop body
(master_agent.py lines 82-87). -/
def gateFires (cur : String) (prev : Option String) (s : WorkflowState) : Bool :=
  cur = "execution" ∧ (prev = some "qa" ∨ prev = some "judge")
    ∧ retryCondition prev s = true ∧ s.retry_count < s.max_retries

/-- The SLA breach check after a step (master_agent.py lines 104-115).
Whether the wall clock has passed the budget is abstracted into the
boolean argument. -/
def slaUpdate (breached : Bool) (s : WorkflowState) : WorkflowState :=
  if breached then
    if "SLA threshold exceeded" ∈ s.warnings then s
    else
      addEvent (addWarning s "SLA threshold exceeded")
        "workflow" "sla_warning" "warning" "SLA threshold exceeded"
  else s

/-- Outcome of one pass through the supervisor while-loop body. -/
inductive IterOut where
  | pausedReturn (s : WorkflowState)
  | raised (msg : String) (s : WorkflowState)
  | exited (cur : String) (s : WorkflowState)
  | next (iter : Nat) (cur : String) (prev : Option String) (s : WorkflowState)
deriving Repr, DecidableEq

/-- The auto-approve branch of the pause_for_approval intercept
(master_agent.py lines 53-67). -/
def autoApproveUpd (state : WorkflowState) : WorkflowState :=
  addEvent { state with
      approval_granted := some true,
      status := .in_progress,
      run_status := "in_progress",
      pause_reason := none }
    "approval" "auto_approved" "info" "Approval gate auto-approved by configuration."

/-- The pause branch of the pause_for_approval intercept (master_agent.py
lines 68-80). -/
def pauseUpd (state : WorkflowState) : WorkflowState :=
  addEvent { state with
      status := .paused,
      run_status := "paused",
      pause_reason := some "Awaiting human approval" }
    "approval" "paused" "warning" "Awaiting human approval"

/-- The retry gate body (master_agent.py lines 82-98): when armed,
increment retry_count and record the retry warning and event. -/
def retryGate (cur : String) (prev : Option String) (state : WorkflowState) : WorkflowState :=
  if gateFires cur prev state then
    let state2 := { state with retry_count := state.retry_count + 1 }
    let msg := "Retrying translation, attempt " ++ toString state2.retry_count
    addEvent (addWarning state2 msg) "execution" "retry" "warning" msg
  else state

/-- route_history append (master_agent.py line 100). -/
def appendRoute (state : WorkflowState) (cur : String) : WorkflowState :=
  { state with route_history := state.route_history ++ [cur] }

/-- One pass through the supervisor loop (master_agent.py lines 51-118):
the while-condition check, the pause_for_approval intercept, the retry
gate, the route_history append, the step execution, the SLA check, and the
routing decision.  `iter` indexes loop iterations for the abstract SLA
clock. -/
def loopIter (w : Workers) (autoApprove : Bool) (sla : Nat → Bool) (iter : Nat)
    (cur : String) (prev : Option String) (state : WorkflowState) : IterOut :=
  if cur = "end" ∨ cur = "delivery" then .exited cur state
  else if cur = "pause_for_approval" then
    if autoApprove then .next iter "execution" prev (autoApproveUpd state)
    else .pausedReturn (pauseUpd state)
  else
    match executeStep w cur (appendRoute (retryGate cur prev state) cur) with
    | .error (msg, st) => .raised msg st
    | .ok st =>
      .next (iter + 1) (determine_next_step cur (slaUpdate (sla iter) st)) (some cur)
        (slaUpdate (sla iter) st)

/-- Result of running the supervisor loop to a boundary. -/
inductive LoopOut where
  | pausedReturn (s : WorkflowState)
  | raised (msg : String) (s : WorkflowState)
  | exited (cur : String) (s : WorkflowState)
  | fuelOut
deriving Repr, DecidableEq

/-- The supervisor while-loop, fuel-indexed.  fuelOut never occurs for the
fuel orchestrate supplies (proved below): retries are bounded, so the loop
terminates. -/
def runLoop (w : Workers) (autoApprove : Bool) (sla : Nat → Bool) :
    Nat → Nat → String → Option String → WorkflowState → LoopOut
  | 0, _, _, _, _ => .fuelOut
  | fuel + 1, iter, cur, prev, state =>
    match loopIter w autoApprove sla iter cur prev state with
    | .pausedReturn s => .pausedReturn s
    | .raised msg s => .raised msg s
    | .exited c s => .exited c s
    | .next iter2 cur2 prev2 s2 => runLoop w autoApprove sla fuel iter2 cur2 prev2 s2

/-- The outer exception handler (master_agent.py lines 141-156). -/
def failHandler (msg : String) (state : WorkflowState) : WorkflowState :=
  let state := { state with status := .failed, end_time_set := true, run_status := "failed" }
  let state := addError state msg
  addEvent state (orStr state.current_agent "workflow") "failed" "error" msg

/-- Final state plus instrumentation: rsLog records the values assigned to
run_status after the while-loop stops (the finalization region,
master_agent.py lines 120-140, plus the failure handler), and raisedMsg
records the message of a worker exception caught at the outer boundary,
if any. -/
structure FinalOut where
  state : WorkflowState
  rsLog : List String
  raisedMsg : Option String
deriving Repr, DecidableEq

instance : Inhabited FinalOut := ⟨⟨default, [], none⟩⟩

/-- Entry into the delivery block (master_agent.py lines 120-124): append
delivery to the route history, mark the run completed with an end time,
and compute the refined run_status. -/
def deliveryEnter (state : WorkflowState) : WorkflowState :=
  let state := { state with
    route_history := state.route_history ++ ["delivery"],
    status := .completed,
    end_time_set := true }
  { state with run_status := deriveRunStatus state }

/-- The closing updates after the loop (master_agent.py lines 128-138):
ensure completed status and end time, recompute run_status, emit the final
event. -/
def finishRun (state : WorkflowState) : WorkflowState :=
  let state := { state with status := .completed, end_time_set := true }
  let v := deriveRunStatus state
  addEvent { state with run_status := v } "workflow" v "info"
    ("Workflow finished with status: " ++ v)

/-- The post-loop finalization (master_agent.py lines 120-140): the
delivery block, then the closing status/end_time/run_status updates and the
final event.  A delivery-step exception falls through to the outer
handler. -/
def finalize (w : Workers) (exitCur : String) (state : WorkflowState) : FinalOut :=
  if exitCur = "delivery" then
    let s1 := deliveryEnter state
    match executeStep w "delivery" s1 with
    | .error (msg, st) =>
        { state := failHandler msg st, rsLog := [s1.run_status, "failed"],
          raisedMsg := some msg }
    | .ok st =>
        { state := finishRun st, rsLog := [s1.run_status, (finishRun st).run_status],
          raisedMsg := none }
  else
    { state := finishRun state, rsLog := [(finishRun state).run_status],
      raisedMsg := none }

/-- The request shape accepted by MasterAgent.orchestrate
(WorkflowState(**initial_request)); field defaults are the pydantic
defaults.  approval_granted may be supplied by a resuming caller. -/
structure Request where
  source_language : String := "en"
  target_language : String := "es"
  document_type : String := "legal"
  page_count : Int := 1
  raw_text : String := ""
  max_retries : Nat := 1
  parallel_execution : Bool := false
  force_qa_fail_once : Bool := false
  requested_real_llm : Bool := false
  approval_granted : Option Bool := none

/-- State initialization at the top of orchestrate (master_agent.py lines
32-46): construct the record, mark it in progress, reset every known step
to pending, emit the started event. -/
def initState (r : Request) : WorkflowState :=
  let state : WorkflowState := {
    source_language := r.source_language,
    target_language := r.target_language,
    document_type := r.document_type,
    page_count := r.page_count,
    raw_text := r.raw_text,
    max_retries := r.max_retries,
    parallel_execution := r.parallel_execution,
    force_qa_fail_once := r.force_qa_fail_once,
    requested_real_llm := r.requested_real_llm,
    approval_granted := r.approval_granted }
  let state := { state with
    status := .in_progress,
    run_status := "in_progress",
    step_status := stepNames.map (fun n => (n, "pending")) }
  addEvent state "workflow" "started" "info" "Workflow started."

/-- Fuel that always suffices for the supervisor loop (proved below). -/
def fuelFor (r : Request) : Nat := 6 * r.max_retries + 8

/-- MasterAgent.orchestrate with instrumentation (see FinalOut).  Returns
none only on fuel exhaustion, which never happens for fuelFor. -/
def orchestrateE (w : Workers) (autoApprove : Bool) (sla : Nat → Bool) (r : Request) :
    Option FinalOut :=
  match runLoop w autoApprove sla (fuelFor r) 0 "intake" none (initState r) with
  | .fuelOut => none
  | .pausedReturn s => some { state := s, rsLog := [], raisedMsg := none }
  | .raised msg st =>
      some { state := failHandler msg st, rsLog := ["failed"], raisedMsg := some msg }
  | .exited cur s => some (finalize w cur s)

/-- MasterAgent.orchestrate: the state record handed back to the caller. -/
def orchestrate (w : Workers) (autoApprove : Bool) (sla : Nat → Bool) (r : Request) :
    Option WorkflowState :=
  (orchestrateE w autoApprove sla r).map (·.state)

/-! ## Trace predicates and invariants -/

/-- Number of retry re-entries recorded in a route history: adjacent pairs
where a qa or judge entry is immediately followed by an execution entry. -/
def retryPairs : List String → Nat
  | a :: b :: rest =>
      (if (a = "qa" ∨ a = "judge") ∧ b = "execution" then 1 else 0) + retryPairs (b :: rest)
  | _ => 0

/-- m repetitions of the pair (execution, qa). -/
def pairsL : Nat → List String
  | 0 => []
  | m + 1 => "execution" :: "qa" :: pairsL m

/-- k repetitions of the triple (execution, qa, judge). -/
def triplesL : Nat → List String
  | 0 => []
  | k + 1 => "execution" :: "qa" :: "judge" :: triplesL k

/-- One retry block: k + 1 (execution, qa) pairs followed by judge. -/
def blockL (k : Nat) : List String := pairsL (k + 1) ++ ["judge"]

/-- A sequence of retry blocks. -/
def blocksJoin (ks : List Nat) : List String := (ks.map blockL).flatten

/-- Modelled from the spec (its C5 sentence): the canonical path family the
spec claims, [intake, planner, (pause_for_approval)?, execution, qa,
(execution, qa)*, judge, (execution, qa, judge)*, delivery], with k1
repetitions of (execution, qa) and k2 repetitions of (execution, qa,
judge). -/
def claimedCanonicalPath (p : Bool) (k1 k2 : Nat) : List String :=
  ["intake", "planner"] ++ (if p then ["pause_for_approval"] else [])
    ++ ["execution", "qa"] ++ pairsL k1 ++ ["judge"] ++ triplesL k2 ++ ["delivery"]

/-- The corrected canonical path family actually generated by the router:
[intake, planner, (pause_for_approval)?, (execution, qa, (execution, qa)*,
judge)+, delivery], one block per judge visit. -/
def canonicalPathFixed (p : Bool) (ks : List Nat) : List String :=
  ["intake", "planner"] ++ (if p then ["pause_for_approval"] else [])
    ++ blocksJoin ks ++ ["delivery"]

/-- l is a prefix of L. -/
def listPrefix (l L : List String) : Prop := ∃ t, l ++ t = L

/-- The route history is a prefix of a member of the corrected canonical
family whose total number of repeated execution entries fits the retry
budget. -/
def RhOk (rh : List String) (maxR : Nat) : Prop :=
  ∃ p ks, ks ≠ [] ∧ listPrefix rh (canonicalPathFixed p ks)
    ∧ retryPairs (canonicalPathFixed p ks) ≤ maxR

/-- Position of the supervisor loop: which route histories can be on the
books when a given step is the current one. -/
def Pos (cur : String) (rh : List String) : Prop :=
  (cur = "intake" ∧ rh = [])
  ∨ (cur = "planner" ∧ rh = ["intake"])
  ∨ (cur = "pause_for_approval" ∧ rh = ["intake", "planner"])
  ∨ (cur = "execution"
      ∧ ∃ ks m, rh = ["intake", "planner"] ++ blocksJoin ks ++ pairsL m)
  ∨ (cur = "qa"
      ∧ ∃ ks m, rh = ["intake", "planner"] ++ blocksJoin ks ++ pairsL m ++ ["execution"])
  ∨ (cur = "judge"
      ∧ ∃ ks m, rh = ["intake", "planner"] ++ blocksJoin ks ++ pairsL (m + 1))
  ∨ (cur = "delivery" ∧ ∃ ks, ks ≠ [] ∧ rh = ["intake", "planner"] ++ blocksJoin ks)

/-- The retry count the state will have once the pending retry gate (if

armed) fires. -/
def effRetry (cur : String) (prev : Option String) (s : WorkflowState) : Nat :=
  if gateFires cur prev s then s.retry_count + 1 else s.retry_count

/-- Rank of a step in the loop order, for termination. -/
def stepRank (cur : String) : Nat :=
  if cur = "intake" then 6
  else if cur = "planner" then 5
  else if cur = "pause_for_approval" then 4
  else if cur = "execution" then 3
  else if cur = "qa" then 2
  else if cur = "judge" then 1
  else 0

/-- Termination measure for the supervisor loop. -/
def loopMeasure (cur : String) (prev : Option String) (s : WorkflowState) : Nat :=
  (s.max_retries - effRetry cur prev s) * 6 + stepRank cur

/-- The supervisor-loop invariant at the top of each while-loop pass, i.e.
immediately after a routing decision. -/
structure LoopInv (cur : String) (prev : Option String) (s : WorkflowState) : Prop where
  cur_ne_end : cur ≠ "end"
  status_inprog : s.status = .in_progress
  prev_last : (prev = none ∧ s.route_history = [])
    ∨ (∃ p t, prev = some p ∧ s.route_history = t ++ [p])
  rc_le : s.retry_count ≤ s.max_retries
  rc_pairs : s.retry_count = retryPairs s.route_history
  exec_qa : cur = "execution" → prev = some "qa" →
    s.qa_result_status = some "fail" ∧ s.retry_count < s.max_retries
  exec_judge : cur = "execution" → prev = some "judge" →
    (∃ a, s.judge_result_action = some a ∧ strLower a = "retry")
      ∧ s.retry_count < s.max_retries
  pause_unset : cur = "pause_for_approval" → s.approval_granted = none
  no_pause_rh : "pause_for_approval" ∉ s.route_history
  pos : Pos cur s.route_history

/-- Configurations the supervisor loop reaches at the top of its while
loop (after each routing decision), for a given worker registry,
auto-approve policy, SLA clock and request. -/
inductive LoopReach (w : Workers) (autoApprove : Bool) (sla : Nat → Bool) (r : Request) :
    Nat → String → Option String → WorkflowState → Prop where
  | init : LoopReach w autoApprove sla r 0 "intake" none (initState r)
  | step {iter cur prev s iter2 cur2 prev2 s2} :
      LoopReach w autoApprove sla r iter cur prev s →
      loopIter w autoApprove sla iter cur prev s = .next iter2 cur2 prev2 s2 →
      LoopReach w autoApprove sla r iter2 cur2 prev2 s2

/-! ## Concrete fixtures for witnesses and counterexamples -/

/-- A benign worker registry: every step succeeds, QA passes, the judge
accepts. -/
def cwOk : Workers where
  intake := fun _ => .ok {}
  planner := fun _ => .ok {}
  execution := fun _ => .ok {}
  qa := fun _ => .ok { qa_status := some "pass" }
  judge := fun _ => .ok { judge_action := some "accept" }
  delivery := fun _ => .ok {}

/-- A registry whose execution worker raises. -/
def cwRaise : Workers where
  intake := fun _ => .ok {}
  planner := fun _ => .ok {}
  execution := fun _ => .error "boom"
  qa := fun _ => .ok { qa_status := some "pass" }
  judge := fun _ => .ok { judge_action := some "accept" }
  delivery := fun _ => .ok {}

/-- A registry whose planner requests approval with a reason, as the
repository planner does (planner_agent.py lines 22-32). -/
def cwApproval : Workers where
  intake := fun _ => .ok {}
  planner := fun _ =>
    .ok { requires_approval := true
          approval_reason := some "Estimated runtime exceeds approval threshold." }
  execution := fun _ => .ok {}
  qa := fun _ => .ok { qa_status := some "pass" }
  judge := fun _ => .ok { judge_action := some "accept" }
  delivery := fun _ => .ok {}

/-- A registry producing a judge retry followed by a QA-fail retry: QA
fails exactly on the second execution attempt, the judge always asks for a
retry. -/
def cwMixedRetry : Workers where
  intake := fun _ => .ok {}
  planner := fun _ => .ok {}
  execution := fun _ => .ok {}
  qa := fun st => .ok { qa_status := some (if st.retry_count = 1 then "fail" else "pass") }
  judge := fun _ => .ok { judge_action := some "retry" }
  delivery := fun _ => .ok {}

/-- The forced-failure test mode (qa_agent.py lines 18-23): QA fails on
the first pass and passes on the retry. -/
def cwQaFailOnce : Workers where
  intake := fun _ => .ok {}
  planner := fun _ => .ok {}
  execution := fun _ => .ok {}
  qa := fun st => .ok { qa_status := some (if st.retry_count = 0 then "fail" else "pass") }
  judge := fun _ => .ok { judge_action := some "accept" }
  delivery := fun _ => .ok {}

/-- An SLA clock that never reports a breach. -/
def slaOff : Nat → Bool := fun _ => false

/-- The default request. -/
def reqDefault : Request := {}

/-- A request with a retry budget of two. -/
def reqTwoRetries : Request := { max_retries := 2 }

/-- Projection of a continuing loop pass, for building concrete reachable
configurations. -/
def nextOf (o : IterOut) : Nat × String × Option String × WorkflowState :=
  match o with
  | .next iter cur prev s => (iter, cur, prev, s)
  | _ => (0, "", none, default)

/-- First loop-top configuration of the approval-requesting run. -/
def c8Step1 : Nat × String × Option String × WorkflowState :=
  nextOf (loopIter cwApproval true slaOff 0 "intake" none (initState reqDefault))

/-- Second loop-top configuration of the approval-requesting run: the
approval gate, reached right after the planner merge. -/
def c8Step2 : Nat × String × Option String × WorkflowState :=
  nextOf (loopIter cwApproval true slaOff c8Step1.1 c8Step1.2.1 c8Step1.2.2.1 c8Step1.2.2.2)

/-- Final instrumented output of the benign run. -/
def c9Out : FinalOut := (orchestrateE cwOk true slaOff reqDefault).getD default

/-- Final instrumented output of the run whose execution worker raises. -/
def c3Out : FinalOut := (orchestrateE cwRaise true slaOff reqDefault).getD default

/-- Final instrumented output of the approval run with auto-approve off. -/
def c8Out : FinalOut := (orchestrateE cwApproval false slaOff reqDefault).getD default

/-- Final instrumented output of the mixed-retry run with budget two. -/
def c5Out : FinalOut := (orchestrateE cwMixedRetry true slaOff reqTwoRetries).getD default

/-- Final instrumented output of the forced-failure run. -/
def c7Out : FinalOut := (orchestrateE cwQaFailOnce true slaOff reqDefault).getD default

/-! ## Helper lemmas: literals and frame conditions -/

@[simp] theorem strLower_fail_lit : strLower "fail" = "fail" := by decide

@[simp] theorem strLower_accept_lit : strLower "accept" = "accept" := by decide

theorem gateFires_iff (cur : String) (prev : Option String) (s : WorkflowState) :
    gateFires cur prev s = true ↔
      cur = "execution" ∧ (prev = some "qa" ∨ prev = some "judge")
        ∧ retryCondition prev s = true ∧ s.retry_count < s.max_retries := by
  simp [gateFires]

@[simp] theorem addWarning_status (s : WorkflowState) (m : String) :
    (addWarning s m).status = s.status := by unfold addWarning; split <;> rfl

@[simp] theorem addWarning_retry_count (s : WorkflowState) (m : String) :
    (addWarning s m).retry_count = s.retry_count := by unfold addWarning; split <;> rfl

@[simp] theorem addWarning_max_retries (s : WorkflowState) (m : String) :
    (addWarning s m).max_retries = s.max_retries := by unfold addWarning; split <;> rfl

@[simp] theorem addWarning_route_history (s : WorkflowState) (m : String) :
    (addWarning s m).route_history = s.route_history := by unfold addWarning; split <;> rfl

@[simp] theorem addWarning_qa_result_status (s : WorkflowState) (m : String) :
    (addWarning s m).qa_result_status = s.qa_result_status := by
  unfold addWarning; split <;> rfl

@[simp] theorem addWarning_judge_result_action (s : WorkflowState) (m : String) :
    (addWarning s m).judge_result_action = s.judge_result_action := by
  unfold addWarning; split <;> rfl

@[simp] theorem addWarning_requires_approval (s : WorkflowState) (m : String) :
    (addWarning s m).requires_approval = s.requires_approval := by
  unfold addWarning; split <;> rfl

@[simp] theorem addWarning_approval_granted (s : WorkflowState) (m : String) :
    (addWarning s m).approval_granted = s.approval_granted := by
  unfold addWarning; split <;> rfl

@[simp] theorem addWarning_pause_reason (s : WorkflowState) (m : String) :
    (addWarning s m).pause_reason = s.pause_reason := by unfold addWarning; split <;> rfl

@[simp] theorem addWarning_step_status (s : WorkflowState) (m : String) :
    (addWarning s m).step_status = s.step_status := by unfold addWarning; split <;> rfl

@[simp] theorem addWarning_end_time_set (s : WorkflowState) (m : String) :
    (addWarning s m).end_time_set = s.end_time_set := by unfold addWarning; split <;> rfl

@[simp] theorem addWarning_errors (s : WorkflowState) (m : String) :
    (addWarning s m).errors = s.errors := by unfold addWarning; split <;> rfl

@[simp] theorem addWarning_run_status (s : WorkflowState) (m : String) :
    (addWarning s m).run_status = s.run_status := by unfold addWarning; split <;> rfl

@[simp] theorem addWarning_current_agent (s : WorkflowState) (m : String) :
    (addWarning s m).current_agent = s.current_agent := by unfold addWarning; split <;> rfl

@[simp] theorem addWarning_requested_real_llm (s : WorkflowState) (m : String) :
    (addWarning s m).requested_real_llm = s.requested_real_llm := by
  unfold addWarning; split <;> rfl

@[simp] theorem addError_status (s : WorkflowState) (m : String) :
    (addError s m).status = s.status := by unfold addError; split <;> rfl

@[simp] theorem addError_run_status (s : WorkflowState) (m : String) :
    (addError s m).run_status = s.run_status := by unfold addError; split <;> rfl

@[simp] theorem addError_end_time_set (s : WorkflowState) (m : String) :
    (addError s m).end_time_set = s.end_time_set := by unfold addError; split <;> rfl

@[simp] theorem addError_route_history (s : WorkflowState) (m : String) :
    (addError s m).route_history = s.route_history := by unfold addError; split <;> rfl

@[simp] theorem addError_retry_count (s : WorkflowState) (m : String) :
    (addError s m).retry_count = s.retry_count := by unfold addError; split <;> rfl

@[simp] theorem addError_max_retries (s : WorkflowState) (m : String) :
    (addError s m).max_retries = s.max_retries := by unfold addError; split <;> rfl

@[simp] theorem addError_pause_reason (s : WorkflowState) (m : String) :
    (addError s m).pause_reason = s.pause_reason := by unfold addError; split <;> rfl

@[simp] theorem addError_approval_granted (s : WorkflowState) (m : String) :
    (addError s m).approval_granted = s.approval_granted := by unfold addError; split <;> rfl

theorem addError_mem (s : WorkflowState) (m : String) : m ∈ (addError s m).errors := by
  unfold addError; split <;> simp_all

@[simp] theorem addEvent_status (s : WorkflowState) (a b c d : String) :
    (addEvent s a b c d).status = s.status := rfl

@[simp] theorem addEvent_retry_count (s : WorkflowState) (a b c d : String) :
    (addEvent s a b c d).retry_count = s.retry_count := rfl

@[simp] theorem addEvent_max_retries (s : WorkflowState) (a b c d : String) :
    (addEvent s a b c d).max_retries = s.max_retries := rfl

@[simp] theorem addEvent_route_history (s : WorkflowState) (a b c d : String) :
    (addEvent s a b c d).route_history = s.route_history := rfl

@[simp] theorem addEvent_qa_result_status (s : WorkflowState) (a b c d : String) :
    (addEvent s a b c d).qa_result_status = s.qa_result_status := rfl

@[simp] theorem addEvent_judge_result_action (s : WorkflowState) (a b c d : String) :
    (addEvent s a b c d).judge_result_action = s.judge_result_action := rfl

@[simp] theorem addEvent_requires_approval (s : WorkflowState) (a b c d : String) :
    (addEvent s a b c d).requires_approval = s.requires_approval := rfl

@[simp] theorem addEvent_approval_granted (s : WorkflowState) (a b c d : String) :
    (addEvent s a b c d).approval_granted = s.approval_granted := rfl

@[simp] theorem addEvent_pause_reason (s : WorkflowState) (a b c d : String) :
    (addEvent s a b c d).pause_reason = s.pause_reason := rfl

@[simp] theorem addEvent_step_status (s : WorkflowState) (a b c d : String) :
    (addEvent s a b c d).step_status = s.step_status := rfl

@[simp] theorem addEvent_end_time_set (s : WorkflowState) (a b c d : String) :
    (addEvent s a b c d).end_time_set = s.end_time_set := rfl

@[simp] theorem addEvent_errors (s : WorkflowState) (a b c d : String) :
    (addEvent s a b c d).errors = s.errors := rfl

@[simp] theorem addEvent_warnings (s : WorkflowState) (a b c d : String) :
    (addEvent s a b c d).warnings = s.warnings := rfl

@[simp] theorem addEvent_run_status (s : WorkflowState) (a b c d : String) :
    (addEvent s a b c d).run_status = s.run_status := rfl

@[simp] theorem addEvent_current_agent (s : WorkflowState) (a b c d : String) :
    (addEvent s a b c d).current_agent = s.current_agent := rfl

@[simp] theorem addEvent_requested_real_llm (s : WorkflowState) (a b c d : String) :
    (addEvent s a b c d).requested_real_llm = s.requested_real_llm := rfl

@[simp] theorem setStepStatus_status (s : WorkflowState) (a b : String) :
    (setStepStatus s a b).status = s.status := rfl

@[simp] theorem setStepStatus_retry_count (s : WorkflowState) (a b : String) :
    (setStepStatus s a b).retry_count = s.retry_count := rfl

@[simp] theorem setStepStatus_max_retries (s : WorkflowState) (a b : String) :
    (setStepStatus s a b).max_retries = s.max_retries := rfl

@[simp] theorem setStepStatus_route_history (s : WorkflowState) (a b : String) :
    (setStepStatus s a b).route_history = s.route_history := rfl

@[simp] theorem setStepStatus_qa_result_status (s : WorkflowState) (a b : String) :
    (setStepStatus s a b).qa_result_status = s.qa_result_status := rfl

@[simp] theorem setStepStatus_judge_result_action (s : WorkflowState) (a b : String) :
    (setStepStatus s a b).judge_result_action = s.judge_result_action := rfl

@[simp] theorem setStepStatus_requires_approval (s : WorkflowState) (a b : String) :
    (setStepStatus s a b).requires_approval = s.requires_approval := rfl

@[simp] theorem setStepStatus_approval_granted (s : WorkflowState) (a b : String) :
    (setStepStatus s a b).approval_granted = s.approval_granted := rfl

@[simp] theorem setStepStatus_pause_reason (s : WorkflowState) (a b : String) :
    (setStepStatus s a b).pause_reason = s.pause_reason := rfl

@[simp] theorem setStepStatus_end_time_set (s : WorkflowState) (a b : String) :
    (setStepStatus s a b).end_time_set = s.end_time_set := rfl

@[simp] theorem setStepStatus_errors (s : WorkflowState) (a b : String) :
    (setStepStatus s a b).errors = s.errors := rfl

@[simp] theorem setStepStatus_warnings (s : WorkflowState) (a b : String) :
    (setStepStatus s a b).warnings = s.warnings := rfl

@[simp] theorem setStepStatus_run_status (s : WorkflowState) (a b : String) :
    (setStepStatus s a b).run_status = s.run_status := rfl

@[simp] theorem setStepStatus_requested_real_llm (s : WorkflowState) (a b : String) :
    (setStepStatus s a b).requested_real_llm = s.requested_real_llm := rfl

@[simp] theorem slaUpdate_status (b : Bool) (s : WorkflowState) :
    (slaUpdate b s).status = s.status := by
  unfold slaUpdate
  repeat' split
  all_goals simp

@[simp] theorem slaUpdate_retry_count (b : Bool) (s : WorkflowState) :
    (slaUpdate b s).retry_count = s.retry_count := by
  unfold slaUpdate
  repeat' split
  all_goals simp

@[simp] theorem slaUpdate_max_retries (b : Bool) (s : WorkflowState) :
    (slaUpdate b s).max_retries = s.max_retries := by
  unfold slaUpdate
  repeat' split
  all_goals simp

@[simp] theorem slaUpdate_route_history (b : Bool) (s : WorkflowState) :
    (slaUpdate b s).route_history = s.route_history := by
  unfold slaUpdate
  repeat' split
  all_goals simp

@[simp] theorem slaUpdate_qa_result_status (b : Bool) (s : WorkflowState) :
    (slaUpdate b s).qa_result_status = s.qa_result_status := by
  unfold slaUpdate
  repeat' split
  all_goals simp

@[simp] theorem slaUpdate_judge_result_action (b : Bool) (s : WorkflowState) :
    (slaUpdate b s).judge_result_action = s.judge_result_action := by
  unfold slaUpdate
  repeat' split
  all_goals simp

@[simp] theorem slaUpdate_requires_approval (b : Bool) (s : WorkflowState) :
    (slaUpdate b s).requires_approval = s.requires_approval := by
  unfold slaUpdate
  repeat' split
  all_goals simp

@[simp] theorem slaUpdate_approval_granted (b : Bool) (s : WorkflowState) :
    (slaUpdate b s).approval_granted = s.approval_granted := by
  unfold slaUpdate
  repeat' split
  all_goals simp

@[simp] theorem slaUpdate_pause_reason (b : Bool) (s : WorkflowState) :
    (slaUpdate b s).pause_reason = s.pause_reason := by
  unfold slaUpdate
  repeat' split
  all_goals simp

@[simp] theorem slaUpdate_step_status (b : Bool) (s : WorkflowState) :
    (slaUpdate b s).step_status = s.step_status := by
  unfold slaUpdate
  repeat' split
  all_goals simp

@[simp] theorem slaUpdate_end_time_set (b : Bool) (s : WorkflowState) :
    (slaUpdate b s).end_time_set = s.end_time_set := by
  unfold slaUpdate
  repeat' split
  all_goals simp

@[simp] theorem slaUpdate_errors (b : Bool) (s : WorkflowState) :
    (slaUpdate b s).errors = s.errors := by
  unfold slaUpdate
  repeat' split
  all_goals simp

@[simp] theorem slaUpdate_run_status (b : Bool) (s : WorkflowState) :
    (slaUpdate b s).run_status = s.run_status := by
  unfold slaUpdate
  repeat' split
  all_goals simp

@[simp] theorem slaUpdate_current_agent (b : Bool) (s : WorkflowState) :
    (slaUpdate b s).current_agent = s.current_agent := by
  unfold slaUpdate
  repeat' split
  all_goals simp

@[simp] theorem mergeResult_status (s : WorkflowState) (n : String) (r : StepResult) :
    (mergeResult s n r).status = s.status := by
  unfold mergeResult
  rcases r.approval_reason with _ | reason
  all_goals dsimp only
  all_goals split_ifs <;> simp [refreshDeliveryMetadata]

@[simp] theorem mergeResult_retry_count (s : WorkflowState) (n : String) (r : StepResult) :
    (mergeResult s n r).retry_count = s.retry_count := by
  unfold mergeResult
  rcases r.approval_reason with _ | reason
  all_goals dsimp only
  all_goals split_ifs <;> simp [refreshDeliveryMetadata]

@[simp] theorem mergeResult_max_retries (s : WorkflowState) (n : String) (r : StepResult) :
    (mergeResult s n r).max_retries = s.max_retries := by
  unfold mergeResult
  rcases r.approval_reason with _ | reason
  all_goals dsimp only
  all_goals split_ifs <;> simp [refreshDeliveryMetadata]

@[simp] theorem mergeResult_route_history (s : WorkflowState) (n : String) (r : StepResult) :
    (mergeResult s n r).route_history = s.route_history := by
  unfold mergeResult
  rcases r.approval_reason with _ | reason
  all_goals dsimp only
  all_goals split_ifs <;> simp [refreshDeliveryMetadata]

@[simp] theorem mergeResult_approval_granted (s : WorkflowState) (n : String) (r : StepResult) :
    (mergeResult s n r).approval_granted = s.approval_granted := by
  unfold mergeResult
  rcases r.approval_reason with _ | reason
  all_goals dsimp only
  all_goals split_ifs <;> simp [refreshDeliveryMetadata]

@[simp] theorem mergeResult_step_status (s : WorkflowState) (n : String) (r : StepResult) :
    (mergeResult s n r).step_status = s.step_status := by
  unfold mergeResult
  rcases r.approval_reason with _ | reason
  all_goals dsimp only
  all_goals split_ifs <;> simp [refreshDeliveryMetadata]

@[simp] theorem mergeResult_end_time_set (s : WorkflowState) (n : String) (r : StepResult) :
    (mergeResult s n r).end_time_set = s.end_time_set := by
  unfold mergeResult
  rcases r.approval_reason with _ | reason
  all_goals dsimp only
  all_goals split_ifs <;> simp [refreshDeliveryMetadata]

@[simp] theorem mergeResult_errors (s : WorkflowState) (n : String) (r : StepResult) :
    (mergeResult s n r).errors = s.errors := by
  unfold mergeResult
  rcases r.approval_reason with _ | reason
  all_goals dsimp only
  all_goals split_ifs <;> simp [refreshDeliveryMetadata]

@[simp] theorem mergeResult_run_status (s : WorkflowState) (n : String) (r : StepResult) :
    (mergeResult s n r).run_status = s.run_status := by
  unfold mergeResult
  rcases r.approval_reason with _ | reason
  all_goals dsimp only
  all_goals split_ifs <;> simp [refreshDeliveryMetadata]

@[simp] theorem mergeResult_current_agent (s : WorkflowState) (n : String) (r : StepResult) :
    (mergeResult s n r).current_agent = s.current_agent := by
  unfold mergeResult
  rcases r.approval_reason with _ | reason
  all_goals dsimp only
  all_goals split_ifs <;> simp [refreshDeliveryMetadata]

theorem mergeResult_requires_approval_ne (s : WorkflowState) (n : String) (r : StepResult)
    (h : n ≠ "planner") : (mergeResult s n r).requires_approval = s.requires_approval := by
  unfold mergeResult
  rcases r.approval_reason with _ | reason
  all_goals dsimp only
  all_goals split_ifs <;> simp_all [refreshDeliveryMetadata]

theorem mergeResult_qa_ne (s : WorkflowState) (n : String) (r : StepResult)
    (h : n ≠ "qa") : (mergeResult s n r).qa_result_status = s.qa_result_status := by
  unfold mergeResult
  rcases r.approval_reason with _ | reason
  all_goals dsimp only
  all_goals split_ifs <;> simp_all [refreshDeliveryMetadata]

theorem mergeResult_judge_ne (s : WorkflowState) (n : String) (r : StepResult)
    (h : n ≠ "judge") : (mergeResult s n r).judge_result_action = s.judge_result_action := by
  unfold mergeResult
  rcases r.approval_reason with _ | reason
  all_goals dsimp only
  all_goals split_ifs <;> simp_all [refreshDeliveryMetadata]

@[simp] theorem Workers.get_intake (w : Workers) : w.get "intake" = some w.intake := rfl

@[simp] theorem Workers.get_planner (w : Workers) : w.get "planner" = some w.planner := rfl

@[simp] theorem Workers.get_execution (w : Workers) : w.get "execution" = some w.execution := rfl

@[simp] theorem Workers.get_qa (w : Workers) : w.get "qa" = some w.qa := rfl

@[simp] theorem Workers.get_judge (w : Workers) : w.get "judge" = some w.judge := rfl

@[simp] theorem Workers.get_delivery (w : Workers) : w.get "delivery" = some w.delivery := rfl

theorem Workers.get_none (w : Workers) (n : String) (h1 : n ≠ "intake") (h2 : n ≠ "planner")
    (h3 : n ≠ "execution") (h4 : n ≠ "qa") (h5 : n ≠ "judge") (h6 : n ≠ "delivery") :
    w.get n = none := by
  simp [Workers.get, h1, h2, h3, h4, h5, h6]

/-- Frame: a successful step execution only changes bookkeeping and the
merged result fields; the listed fields are untouched. -/
theorem executeStep_ok_frame (w : Workers) (n : String) (s st : WorkflowState)
    (h : executeStep w n s = .ok st) :
    st.status = s.status ∧ st.retry_count = s.retry_count
    ∧ st.max_retries = s.max_retries ∧ st.route_history = s.route_history
    ∧ st.approval_granted = s.approval_granted ∧ st.end_time_set = s.end_time_set
    ∧ st.errors = s.errors ∧ st.run_status = s.run_status := by
  unfold executeStep at h
  cases hg : w.get n with
  | none => rw [hg] at h; cases h
  | some f =>
    rw [hg] at h
    dsimp only at h
    cases hr : f (stepBegin n s) with
    | error msg => rw [hr] at h; cases h
    | ok result =>
      rw [hr] at h
      dsimp only at h
      rw [Except.ok.injEq] at h
      subst h
      by_cases hd : n = "delivery" <;>
        simp [hd, refreshDeliveryMetadata, stepFinish, stepBegin,
          mergeResult_requires_approval_ne, mergeResult_qa_ne, mergeResult_judge_ne]

/-- Frame: a failing step execution only marks the step failed and logs
events before the exception propagates. -/
theorem executeStep_error_frame (w : Workers) (n : String) (s st : WorkflowState) (msg : String)
    (h : executeStep w n s = .error (msg, st)) :
    st.status = s.status ∧ st.retry_count = s.retry_count
    ∧ st.max_retries = s.max_retries ∧ st.route_history = s.route_history
    ∧ st.approval_granted = s.approval_granted ∧ st.end_time_set = s.end_time_set
    ∧ st.errors = s.errors ∧ st.run_status = s.run_status
    ∧ st.qa_result_status = s.qa_result_status
    ∧ st.judge_result_action = s.judge_result_action := by
  unfold executeStep at h
  cases hg : w.get n with
  | none =>
    rw [hg] at h
    cases h
    simp
  | some f =>
    rw [hg] at h
    dsimp only at h
    cases hr : f (stepBegin n s) with
    | error m2 =>
      rw [hr] at h
      dsimp only at h
      rw [Except.error.injEq, Prod.mk.injEq] at h
      obtain ⟨h1, h2⟩ := h
      subst h2
      simp [stepBegin]
    | ok result =>
      rw [hr] at h
      dsimp only at h
      cases h

@[simp] theorem retryGate_status (cur : String) (prev : Option String) (s : WorkflowState) :
    (retryGate cur prev s).status = s.status := by unfold retryGate; split <;> simp

@[simp] theorem retryGate_max_retries (cur : String) (prev : Option String) (s : WorkflowState) :
    (retryGate cur prev s).max_retries = s.max_retries := by unfold retryGate; split <;> simp

@[simp] theorem retryGate_route_history (cur : String) (prev : Option String)
    (s : WorkflowState) :
    (retryGate cur prev s).route_history = s.route_history := by unfold retryGate; split <;> simp

@[simp] theorem retryGate_qa_result_status (cur : String) (prev : Option String)
    (s : WorkflowState) :
    (retryGate cur prev s).qa_result_status = s.qa_result_status := by
  unfold retryGate; split <;> simp

@[simp] theorem retryGate_judge_result_action (cur : String) (prev : Option String)
    (s : WorkflowState) :
    (retryGate cur prev s).judge_result_action = s.judge_result_action := by
  unfold retryGate; split <;> simp

@[simp] theorem retryGate_requires_approval (cur : String) (prev : Option String)
    (s : WorkflowState) :
    (retryGate cur prev s).requires_approval = s.requires_approval := by
  unfold retryGate; split <;> simp

@[simp] theorem retryGate_approval_granted (cur : String) (prev : Option String)
    (s : WorkflowState) :
    (retryGate cur prev s).approval_granted = s.approval_granted := by
  unfold retryGate; split <;> simp

@[simp] theorem retryGate_pause_reason (cur : String) (prev : Option String)
    (s : WorkflowState) :
    (retryGate cur prev s).pause_reason = s.pause_reason := by unfold retryGate; split <;> simp

@[simp] theorem retryGate_step_status (cur : String) (prev : Option String)
    (s : WorkflowState) :
    (retryGate cur prev s).step_status = s.step_status := by unfold retryGate; split <;> simp

@[simp] theorem retryGate_errors (cur : String) (prev : Option String) (s : WorkflowState) :
    (retryGate cur prev s).errors = s.errors := by unfold retryGate; split <;> simp

@[simp] theorem retryGate_run_status (cur : String) (prev : Option String) (s : WorkflowState) :
    (retryGate cur prev s).run_status = s.run_status := by unfold retryGate; split <;> simp

@[simp] theorem retryGate_end_time_set (cur : String) (prev : Option String)
    (s : WorkflowState) :
    (retryGate cur prev s).end_time_set = s.end_time_set := by unfold retryGate; split <;> simp

theorem retryGate_retry_count (cur : String) (prev : Option String) (s : WorkflowState) :
    (retryGate cur prev s).retry_count = effRetry cur prev s := by
  unfold retryGate effRetry; split <;> simp_all

theorem gateFires_ne_exec {cur : String} (prev : Option String) (s : WorkflowState)
    (h : cur ≠ "execution") : gateFires cur prev s = false := by
  simp [gateFires, h]

theorem gateFires_lt {cur : String} {prev : Option String} {s : WorkflowState}
    (h : gateFires cur prev s = true) : s.retry_count < s.max_retries :=
  ((gateFires_iff cur prev s).mp h).2.2.2

theorem effRetry_gate_true {cur : String} {prev : Option String} {s : WorkflowState}
    (h : gateFires cur prev s = true) : effRetry cur prev s = s.retry_count + 1 := by
  simp [effRetry, h]

theorem effRetry_gate_false {cur : String} {prev : Option String} {s : WorkflowState}
    (h : gateFires cur prev s = false) : effRetry cur prev s = s.retry_count := by
  simp [effRetry, h]

theorem effRetry_le (cur : String) (prev : Option String) (s : WorkflowState)
    (hle : s.retry_count ≤ s.max_retries) :
    effRetry cur prev s ≤ s.max_retries := by
  unfold effRetry
  split
  · next h => exact gateFires_lt h
  · exact hle

/-- Case characterization of a loop pass that continues. -/
theorem loopIter_next_cases (w : Workers) (auto : Bool) (sla : Nat → Bool) (iter : Nat)
    (cur : String) (prev : Option String) (s : WorkflowState) {i2 : Nat} {c2 : String}
    {p2 : Option String} {s2 : WorkflowState}
    (h : loopIter w auto sla iter cur prev s = .next i2 c2 p2 s2) :
    (cur = "pause_for_approval" ∧ auto = true ∧ i2 = iter ∧ c2 = "execution" ∧ p2 = prev
      ∧ s2 = autoApproveUpd s)
    ∨ (cur ≠ "end" ∧ cur ≠ "delivery" ∧ cur ≠ "pause_for_approval"
        ∧ i2 = iter + 1 ∧ p2 = some cur
        ∧ ∃ st, executeStep w cur (appendRoute (retryGate cur prev s) cur) = .ok st
          ∧ s2 = slaUpdate (sla iter) st ∧ c2 = determine_next_step cur s2) := by
  unfold loopIter at h
  split at h
  · cases h
  · next hne =>
    rw [not_or] at hne
    split at h
    · next hp =>
      split at h
      · next ha =>
        rw [IterOut.next.injEq] at h
        obtain ⟨h1, h2, h3, h4⟩ := h
        exact Or.inl ⟨hp, ha, h1.symm, h2.symm, h3.symm, h4.symm⟩
      · cases h
    · next hp =>
      split at h
      · cases h
      · next st hst =>
        rw [IterOut.next.injEq] at h
        obtain ⟨h1, h2, h3, h4⟩ := h
        exact Or.inr ⟨hne.1, hne.2, hp, h1.symm, h3.symm, st, hst, h4.symm, by
          rw [← h2, h4]⟩

/-- Case characterization of a loop pass that returns paused. -/
theorem loopIter_paused_cases (w : Workers) (auto : Bool) (sla : Nat → Bool) (iter : Nat)
    (cur : String) (prev : Option String) (s : WorkflowState) {s2 : WorkflowState}
    (h : loopIter w auto sla iter cur prev s = .pausedReturn s2) :
    cur = "pause_for_approval" ∧ auto = false ∧ s2 = pauseUpd s := by
  unfold loopIter at h
  split at h
  · cases h
  · split at h
    · next hp =>
      split at h
      · cases h
      · next ha =>
        rw [IterOut.pausedReturn.injEq] at h
        exact ⟨hp, by simp_all, h.symm⟩
    · split at h
      · cases h
      · cases h

/-- Case characterization of a loop pass in which the worker raises. -/
theorem loopIter_raised_cases (w : Workers) (auto : Bool) (sla : Nat → Bool) (iter : Nat)
    (cur : String) (prev : Option String) (s : WorkflowState) {msg : String}
    {st : WorkflowState}
    (h : loopIter w auto sla iter cur prev s = .raised msg st) :
    cur ≠ "end" ∧ cur ≠ "delivery" ∧ cur ≠ "pause_for_approval"
      ∧ executeStep w cur (appendRoute (retryGate cur prev s) cur) = .error (msg, st) := by
  unfold loopIter at h
  split at h
  · cases h
  · next hne =>
    rw [not_or] at hne
    split at h
    · split at h
      · cases h
      · cases h
    · next hp =>
      split at h
      · next m2 st2 hst =>
        rw [IterOut.raised.injEq] at h
        obtain ⟨h1, h2⟩ := h
        subst h1
        subst h2
        exact ⟨hne.1, hne.2, hp, hst⟩
      · cases h

/-- Case characterization of a loop pass that exits the while loop. -/
theorem loopIter_exited_cases (w : Workers) (auto : Bool) (sla : Nat → Bool) (iter : Nat)
    (cur : String) (prev : Option String) (s : WorkflowState) {c2 : String}
    {s2 : WorkflowState}
    (h : loopIter w auto sla iter cur prev s = .exited c2 s2) :
    (cur = "end" ∨ cur = "delivery") ∧ c2 = cur ∧ s2 = s := by
  unfold loopIter at h
  split at h
  · next he =>
    rw [IterOut.exited.injEq] at h
    exact ⟨he, h.1.symm, h.2.symm⟩
  · split at h
    · split at h
      · cases h
      · cases h
    · split at h
      · cases h
      · cases h

/-- The loop measure strictly decreases across every continuing pass. -/
theorem loopIter_next_measure (w : Workers) (auto : Bool) (sla : Nat → Bool) (iter : Nat)
    (cur : String) (prev : Option String) (s : WorkflowState) {i2 : Nat} {c2 : String}
    {p2 : Option String} {s2 : WorkflowState}
    (h : loopIter w auto sla iter cur prev s = .next i2 c2 p2 s2) :
    loopMeasure c2 p2 s2 < loopMeasure cur prev s := by
  rcases loopIter_next_cases w auto sla iter cur prev s h with
    ⟨hp, _, _, hc, hpr, hs⟩ | ⟨hend, hdel, hpau, _, hpr, st, hst, hs, hc⟩
  · subst hp
    subst hc
    rw [hpr]
    subst hs
    have hrc : (autoApproveUpd s).retry_count = s.retry_count := by simp [autoApproveUpd]
    have hmr : (autoApproveUpd s).max_retries = s.max_retries := by simp [autoApproveUpd]
    have hg1 : gateFires "pause_for_approval" prev s = false :=
      gateFires_ne_exec prev s (by decide)
    unfold loopMeasure stepRank
    rw [effRetry_gate_false hg1]
    simp only [reduceIte, String.reduceEq]
    by_cases hg2 : gateFires "execution" prev (autoApproveUpd s) = true
    · have hlt := gateFires_lt hg2
      rw [effRetry_gate_true hg2, hrc, hmr]
      rw [hrc, hmr] at hlt
      omega
    · rw [effRetry_gate_false (by simp_all), hrc, hmr]
      omega
  · obtain ⟨hsts, hrc0, hmr0, _, _, _, _, _⟩ := executeStep_ok_frame _ _ _ _ hst
    subst hpr
    subst hs
    have hrcst : st.retry_count = effRetry cur prev s := by
      rw [hrc0]; simp [appendRoute, retryGate_retry_count]
    have hmrst : st.max_retries = s.max_retries := by
      rw [hmr0]; simp [appendRoute]
    by_cases h1 : cur = "intake"
    · subst h1
      have hc2 : c2 = "planner" := by rw [hc]; simp [determine_next_step]
      subst hc2
      have hg1 : gateFires "intake" prev s = false := gateFires_ne_exec prev s (by decide)
      unfold loopMeasure stepRank
      rw [effRetry_gate_false (gateFires_ne_exec _ _ (show "planner" ≠ "execution" by decide)),
        slaUpdate_retry_count, slaUpdate_max_retries, hrcst, hmrst, effRetry_gate_false hg1]
      simp only [String.reduceEq, reduceIte]
      omega
    by_cases h2 : cur = "planner"
    · subst h2
      have hg1 : gateFires "planner" prev s = false := gateFires_ne_exec prev s (by decide)
      by_cases hpq : st.requires_approval = true ∧ st.approval_granted = none
      · have hc2 : c2 = "pause_for_approval" := by
          rw [hc]; simp [determine_next_step, hpq.1, hpq.2]
        subst hc2
        unfold loopMeasure stepRank
        rw [effRetry_gate_false (gateFires_ne_exec _ _
            (show "pause_for_approval" ≠ "execution" by decide)),
          slaUpdate_retry_count, slaUpdate_max_retries, hrcst, hmrst,
          effRetry_gate_false hg1]
        simp only [String.reduceEq, reduceIte]
        omega
      · have hc2 : c2 = "execution" := by
          rw [hc]
          simp only [determine_next_step, String.reduceEq, reduceIte,
            slaUpdate_requires_approval, slaUpdate_approval_granted]
          rw [if_neg hpq]
        subst hc2
        have hg2 : gateFires "execution" (some "planner") (slaUpdate (sla iter) st) = false := by
          simp [gateFires]
        unfold loopMeasure stepRank
        rw [effRetry_gate_false hg2, slaUpdate_retry_count, slaUpdate_max_retries,
          hrcst, hmrst, effRetry_gate_false hg1]
        simp only [String.reduceEq, reduceIte]
        omega
    by_cases h3 : cur = "execution"
    · subst h3
      have hc2 : c2 = "qa" := by rw [hc]; simp [determine_next_step]
      subst hc2
      unfold loopMeasure stepRank
      rw [effRetry_gate_false (gateFires_ne_exec _ _ (show "qa" ≠ "execution" by decide)),
        slaUpdate_retry_count, slaUpdate_max_retries, hrcst, hmrst]
      simp only [String.reduceEq, reduceIte]
      omega
    by_cases h4 : cur = "qa"
    · subst h4
      have hg1 : gateFires "qa" prev s = false := gateFires_ne_exec prev s (by decide)
      by_cases hq : st.qa_result_status = some "fail" ∧ st.retry_count < st.max_retries
      · have hc2 : c2 = "execution" := by
          rw [hc]; simp [determine_next_step, hq.1, hq.2]
        subst hc2
        have hg2 : gateFires "execution" (some "qa") (slaUpdate (sla iter) st) = true := by
          rw [gateFires_iff]
          refine ⟨rfl, Or.inl rfl, ?_, by simpa using hq.2⟩
          simp [retryCondition, qaFailed, hq.1]
        have hlt : effRetry "qa" prev s < s.max_retries := by
          rw [← hrcst, ← hmrst]; exact hq.2
        unfold loopMeasure stepRank
        rw [effRetry_gate_true hg2, slaUpdate_retry_count, slaUpdate_max_retries,
          hrcst, hmrst]
        simp only [String.reduceEq, reduceIte]
        rw [effRetry_gate_false hg1] at hlt ⊢
        omega
      · have hc2 : c2 = "judge" := by
          rw [hc]
          simp only [determine_next_step, String.reduceEq, reduceIte,
            slaUpdate_qa_result_status, slaUpdate_retry_count, slaUpdate_max_retries]
          rw [if_neg hq]
        subst hc2
        unfold loopMeasure stepRank
        rw [effRetry_gate_false (gateFires_ne_exec _ _ (show "judge" ≠ "execution" by decide)),
          slaUpdate_retry_count, slaUpdate_max_retries, hrcst, hmrst,
          effRetry_gate_false hg1]
        simp only [String.reduceEq, reduceIte]
        omega
    by_cases h5 : cur = "judge"
    · subst h5
      have hg1 : gateFires "judge" prev s = false := gateFires_ne_exec prev s (by decide)
      by_cases hq : strLower (st.judge_result_action.getD "accept") = "retry"
          ∧ st.retry_count < st.max_retries
      · have hc2 : c2 = "execution" := by
          rw [hc]; simp [determine_next_step, hq.1, hq.2]
        subst hc2
        have hja : ∃ a, st.judge_result_action = some a ∧ strLower a = "retry" := by
          rcases hj : st.judge_result_action with _ | a
          · rw [hj] at hq
            exact absurd hq.1 (by simp)
          · rw [hj] at hq
            exact ⟨a, rfl, by simpa using hq.1⟩
        obtain ⟨a, hja1, hja2⟩ := hja
        have hg2 : gateFires "execution" (some "judge") (slaUpdate (sla iter) st) = true := by
          rw [gateFires_iff]
          refine ⟨rfl, Or.inr rfl, ?_, by simpa using hq.2⟩
          simp [retryCondition, hja1, hja2]
        have hlt : effRetry "judge" prev s < s.max_retries := by
          rw [← hrcst, ← hmrst]; exact hq.2
        unfold loopMeasure stepRank
        rw [effRetry_gate_true hg2, slaUpdate_retry_count, slaUpdate_max_retries,
          hrcst, hmrst]
        simp only [String.reduceEq, reduceIte]
        rw [effRetry_gate_false hg1] at hlt ⊢
        omega
      · have hc2 : c2 = "delivery" := by
          rw [hc]
          simp only [determine_next_step, String.reduceEq, reduceIte,
            slaUpdate_judge_result_action, slaUpdate_retry_count, slaUpdate_max_retries]
          rw [if_neg hq]
        subst hc2
        unfold loopMeasure stepRank
        rw [effRetry_gate_false (gateFires_ne_exec _ _
            (show "delivery" ≠ "execution" by decide)),
          slaUpdate_retry_count, slaUpdate_max_retries, hrcst, hmrst,
          effRetry_gate_false hg1]
        simp only [String.reduceEq, reduceIte]
        omega
    · exfalso
      unfold executeStep at hst
      rw [Workers.get_none w cur h1 h2 h3 h4 h5 hdel] at hst
      cases hst

/-! ## List lemmas for route-history accounting -/

theorem retryPairs_snoc (l : List String) (b : String) :
    retryPairs (l ++ [b]) = retryPairs l +
      (if (l.getLast? = some "qa" ∨ l.getLast? = some "judge") ∧ b = "execution"
        then 1 else 0) := by
  induction l with
  | nil => simp [retryPairs]
  | cons x xs ih =>
    cases xs with
    | nil => simp [retryPairs]
    | cons y ys =>
      have hgl : (x :: y :: ys).getLast? = (y :: ys).getLast? := List.getLast?_cons_cons
      simp only [List.cons_append, retryPairs, hgl, List.append_eq]
      rw [show (y :: ys) ++ [b] = y :: (ys ++ [b]) from rfl] at ih
      rw [ih]
      omega

theorem pairsL_snoc (m : Nat) :
    pairsL (m + 1) = pairsL m ++ ["execution", "qa"] := by
  induction m with
  | zero => simp [pairsL]
  | succ k ih =>
    calc pairsL (k + 1 + 1) = "execution" :: "qa" :: pairsL (k + 1) := rfl
    _ = "execution" :: "qa" :: (pairsL k ++ ["execution", "qa"]) := by rw [ih]
    _ = ("execution" :: "qa" :: pairsL k) ++ ["execution", "qa"] := by simp
    _ = pairsL (k + 1) ++ ["execution", "qa"] := rfl

theorem blocksJoin_snoc (ks : List Nat) (m : Nat) :
    blocksJoin (ks ++ [m]) = blocksJoin ks ++ (pairsL (m + 1) ++ ["judge"]) := by
  simp [blocksJoin, blockL]

theorem blocksJoin_getLast (ks : List Nat) (hne : ks ≠ []) (pre : List String) :
    (pre ++ blocksJoin ks).getLast? = some "judge" := by
  induction ks using List.reverseRecOn with
  | nil => exact absurd rfl hne
  | append_singleton ks2 m ih =>
    rw [blocksJoin_snoc]
    rw [show pre ++ (blocksJoin ks2 ++ (pairsL (m + 1) ++ ["judge"]))
      = (pre ++ (blocksJoin ks2 ++ pairsL (m + 1))) ++ ["judge"] by simp]
    simp

theorem pairsL_getLast (m : Nat) (pre : List String) :
    (pre ++ pairsL (m + 1)).getLast? = some "qa" := by
  rw [pairsL_snoc]
  rw [show pre ++ (pairsL m ++ ["execution", "qa"])
    = (pre ++ (pairsL m ++ ["execution"])) ++ ["qa"] by simp]
  simp

theorem Pos_cur_known {cur : String} {rh : List String} (h : Pos cur rh) :
    cur = "intake" ∨ cur = "planner" ∨ cur = "pause_for_approval" ∨ cur = "execution"
      ∨ cur = "qa" ∨ cur = "judge" ∨ cur = "delivery" := by
  rcases h with ⟨h1,-⟩|⟨h1,-⟩|⟨h1,-⟩|⟨h1,-⟩|⟨h1,-⟩|⟨h1,-⟩|⟨h1,-⟩ <;> tauto

theorem route_ne_end (s : WorkflowState) {cur : String}
    (h : cur = "intake" ∨ cur = "planner" ∨ cur = "execution" ∨ cur = "qa"
      ∨ cur = "judge") :
    determine_next_step cur s ≠ "end" := by
  rcases h with h|h|h|h|h <;> subst h <;>
    simp only [determine_next_step, String.reduceEq, reduceIte] <;>
    (try split) <;> simp

/-- In an invariant configuration, the effective retry count equals the
number of retry pairs after appending the current step. -/
theorem effRetry_pairs {cur : String} {prev : Option String} {s : WorkflowState}
    (inv : LoopInv cur prev s) :
    effRetry cur prev s = retryPairs (s.route_history ++ [cur]) := by
  rw [retryPairs_snoc, ← inv.rc_pairs]
  by_cases hg : gateFires cur prev s = true
  · obtain ⟨hex, hpv, hrcond, hlt⟩ := (gateFires_iff cur prev s).mp hg
    rw [effRetry_gate_true hg]
    have hlast : s.route_history.getLast? = some "qa"
        ∨ s.route_history.getLast? = some "judge" := by
      rcases inv.prev_last with ⟨hpn, -⟩ | ⟨p, t, hps, ht⟩
      · rcases hpv with h6 | h6 <;> rw [hpn] at h6 <;> cases h6
      · rw [ht, List.getLast?_concat]
        rcases hpv with h6 | h6
        · rw [hps] at h6
          injection h6 with h7
          left
          rw [h7]
        · rw [hps] at h6
          injection h6 with h7
          right
          rw [h7]
    rw [if_pos ⟨hlast, hex⟩]
  · rw [Bool.not_eq_true] at hg
    rw [effRetry_gate_false hg]
    rw [if_neg ?_]
    · omega
    rintro ⟨hlast, hex⟩
    rcases inv.prev_last with ⟨-, h0⟩ | ⟨p, t, hps, ht⟩
    · rw [h0] at hlast
      rcases hlast with h6 | h6 <;> cases h6
    · rw [ht, List.getLast?_concat] at hlast
      have hcontra : gateFires cur prev s = true := by
        rw [gateFires_iff]
        rcases hlast with h6 | h6
        · injection h6 with h7
          subst h7
          obtain ⟨hqa, hlt⟩ := inv.exec_qa hex hps
          exact ⟨hex, Or.inl hps, by simp [retryCondition, hps, qaFailed, hqa], hlt⟩
        · injection h6 with h7
          subst h7
          obtain ⟨⟨a, hja, hlow⟩, hlt⟩ := inv.exec_judge hex hps
          exact ⟨hex, Or.inr hps, by simp [retryCondition, hps, hja, hlow], hlt⟩
      rw [hcontra] at hg
      cases hg

/-- The supervisor-loop invariant is preserved across every continuing
pass. -/
theorem loopIter_next_inv (w : Workers) (auto : Bool) (sla : Nat → Bool) (iter : Nat)
    {cur : String} {prev : Option String} {s : WorkflowState} {i2 : Nat} {c2 : String}
    {p2 : Option String} {s2 : WorkflowState}
    (inv : LoopInv cur prev s)
    (h : loopIter w auto sla iter cur prev s = .next i2 c2 p2 s2) :
    LoopInv c2 p2 s2 := by
  rcases loopIter_next_cases w auto sla iter cur prev s h with
    ⟨hp, -, -, hc, hpr, hs⟩ | ⟨hend, hdel, hpau, -, hpr, st, hst, hs, hc⟩
  · subst hp
    subst hc
    subst hs
    have hrh : s.route_history = ["intake", "planner"] := by
      rcases inv.pos with ⟨h1,h2⟩|⟨h1,h2⟩|⟨h1,h2⟩|⟨h1,h2⟩|⟨h1,h2⟩|⟨h1,h2⟩|⟨h1,h2⟩ <;>
        first
          | exact h2
          | exact absurd h1 (by decide)
    have hprev : prev = some "planner" := by
      rcases inv.prev_last with ⟨-, h0⟩ | ⟨p, t, hps, ht⟩
      · rw [hrh] at h0
        cases h0
      · rw [hrh] at ht
        have h3 : (["intake", "planner"] : List String).getLast? = (t ++ [p]).getLast? := by
          rw [ht]
        rw [List.getLast?_concat] at h3
        simp at h3
        rw [hps, h3]
    rw [hpr, hprev]
    refine ⟨by decide, by simp [autoApproveUpd], ?_, ?_, ?_, ?_, ?_, ?_, ?_, ?_⟩
    · exact Or.inr ⟨"planner", ["intake"], rfl, by simp [autoApproveUpd, hrh]⟩
    · simpa [autoApproveUpd] using inv.rc_le
    · simpa [autoApproveUpd, hrh] using (hrh ▸ inv.rc_pairs)
    · intro _ hq
      exact absurd hq (by decide)
    · intro _ hq
      exact absurd hq (by decide)
    · intro hq
      exact absurd hq (by decide)
    · simpa [autoApproveUpd] using inv.no_pause_rh
    · refine Or.inr (Or.inr (Or.inr (Or.inl ⟨rfl, [], 0, ?_⟩)))
      simp [autoApproveUpd, hrh, blocksJoin, pairsL]
  · subst hpr
    subst hs
    obtain ⟨hsts, hrc0, hmr0, hrh0, hgr0, -, -, -⟩ := executeStep_ok_frame _ _ _ _ hst
    have hrc2 : (slaUpdate (sla iter) st).retry_count = effRetry cur prev s := by
      rw [slaUpdate_retry_count, hrc0]
      simp [appendRoute, retryGate_retry_count]
    have hmr2 : (slaUpdate (sla iter) st).max_retries = s.max_retries := by
      rw [slaUpdate_max_retries, hmr0]
      simp [appendRoute]
    have hrh2 : (slaUpdate (sla iter) st).route_history = s.route_history ++ [cur] := by
      rw [slaUpdate_route_history, hrh0]
      simp [appendRoute]
    have hst2 : (slaUpdate (sla iter) st).status = WorkflowStatus.in_progress := by
      rw [slaUpdate_status, hsts]
      simp [appendRoute]
      exact inv.status_inprog
    have hcur5 : cur = "intake" ∨ cur = "planner" ∨ cur = "execution" ∨ cur = "qa"
        ∨ cur = "judge" := by
      rcases Pos_cur_known inv.pos with h5|h5|h5|h5|h5|h5|h5
      · tauto
      · tauto
      · exact absurd h5 hpau
      · tauto
      · tauto
      · tauto
      · exact absurd h5 hdel
    have hpairs := effRetry_pairs inv
    refine ⟨?_, hst2, ?_, ?_, ?_, ?_, ?_, ?_, ?_, ?_⟩
    · rw [hc]
      exact route_ne_end _ hcur5
    · exact Or.inr ⟨cur, s.route_history, rfl, hrh2⟩
    · rw [hrc2, hmr2]
      exact effRetry_le cur prev s inv.rc_le
    · rw [hrc2, hrh2]
      exact hpairs
    · intro hce hpq
      injection hpq with hcur
      subst hcur
      have hrt : determine_next_step "qa" (slaUpdate (sla iter) st) = "execution" :=
        hc.symm.trans hce
      simp only [determine_next_step, String.reduceEq, reduceIte] at hrt
      by_cases hcond : (slaUpdate (sla iter) st).qa_result_status = some "fail"
          ∧ (slaUpdate (sla iter) st).retry_count < (slaUpdate (sla iter) st).max_retries
      · exact hcond
      · rw [if_neg ?_] at hrt
        · exact absurd hrt (by decide)
        simpa using hcond
    · intro hce hpq
      injection hpq with hcur
      subst hcur
      have hrt : determine_next_step "judge" (slaUpdate (sla iter) st) = "execution" :=
        hc.symm.trans hce
      simp only [determine_next_step, String.reduceEq, reduceIte] at hrt
      by_cases hcond : strLower ((slaUpdate (sla iter) st).judge_result_action.getD "accept")
            = "retry"
          ∧ (slaUpdate (sla iter) st).retry_count < (slaUpdate (sla iter) st).max_retries
      · refine ⟨?_, hcond.2⟩
        rcases hja : (slaUpdate (sla iter) st).judge_result_action with _ | a
        · rw [hja] at hcond
          exact absurd hcond.1 (by simp)
        · rw [hja] at hcond
          exact ⟨a, rfl, by simpa using hcond.1⟩
      · rw [if_neg ?_] at hrt
        · exact absurd hrt (by decide)
        simpa using hcond
    · intro hcp
      rw [hc] at hcp
      rcases hcur5 with h5|h5|h5|h5|h5
      · subst h5
        simp [determine_next_step] at hcp
      · subst h5
        by_cases hcond : (slaUpdate (sla iter) st).requires_approval = true
            ∧ (slaUpdate (sla iter) st).approval_granted = none
        · exact hcond.2
        · rw [show determine_next_step "planner" (slaUpdate (sla iter) st) = "execution" from by
            simp only [determine_next_step, String.reduceEq, reduceIte]
            rw [if_neg hcond]] at hcp
          exact absurd hcp (by decide)
      · subst h5
        simp [determine_next_step] at hcp
      · subst h5
        simp only [determine_next_step, String.reduceEq, reduceIte] at hcp
        split at hcp <;> exact absurd hcp (by decide)
      · subst h5
        simp only [determine_next_step, String.reduceEq, reduceIte] at hcp
        split at hcp <;> exact absurd hcp (by decide)
    · rw [hrh2]
      intro hmem
      rcases List.mem_append.mp hmem with hm | hm
      · exact inv.no_pause_rh hm
      · simp at hm
        exact hpau hm.symm
    · rw [hc, hrh2]
      rcases inv.pos with ⟨h1,h2⟩|⟨h1,h2⟩|⟨h1,h2⟩|⟨h1,hks⟩|⟨h1,hks⟩|⟨h1,hks⟩|⟨h1,hks⟩
      · subst h1
        rw [h2]
        rw [show determine_next_step "intake" (slaUpdate (sla iter) st) = "planner" from by
          simp [determine_next_step]]
        exact Or.inr (Or.inl ⟨rfl, by simp⟩)
      · subst h1
        rw [h2]
        by_cases hcond : (slaUpdate (sla iter) st).requires_approval = true
            ∧ (slaUpdate (sla iter) st).approval_granted = none
        · rw [show determine_next_step "planner" (slaUpdate (sla iter) st)
              = "pause_for_approval" from by
            simp only [determine_next_step, String.reduceEq, reduceIte]
            rw [if_pos hcond]]
          exact Or.inr (Or.inr (Or.inl ⟨rfl, by simp⟩))
        · rw [show determine_next_step "planner" (slaUpdate (sla iter) st) = "execution" from by
            simp only [determine_next_step, String.reduceEq, reduceIte]
            rw [if_neg hcond]]
          refine Or.inr (Or.inr (Or.inr (Or.inl ⟨rfl, [], 0, ?_⟩)))
          simp [blocksJoin, pairsL]
      · exact absurd h1 hpau
      · obtain ⟨ks, m, h2⟩ := hks
        subst h1
        rw [h2]
        rw [show determine_next_step "execution" (slaUpdate (sla iter) st) = "qa" from by
          simp [determine_next_step]]
        refine Or.inr (Or.inr (Or.inr (Or.inr (Or.inl ⟨rfl, ks, m, ?_⟩))))
        simp
      · obtain ⟨ks, m, h2⟩ := hks
        subst h1
        rw [h2]
        by_cases hcond : (slaUpdate (sla iter) st).qa_result_status = some "fail"
            ∧ (slaUpdate (sla iter) st).retry_count < (slaUpdate (sla iter) st).max_retries
        · rw [show determine_next_step "qa" (slaUpdate (sla iter) st) = "execution" from by
            simp only [determine_next_step, String.reduceEq, reduceIte]
            rw [if_pos hcond]]
          refine Or.inr (Or.inr (Or.inr (Or.inl ⟨rfl, ks, m + 1, ?_⟩)))
          rw [pairsL_snoc]
          simp
        · rw [show determine_next_step "qa" (slaUpdate (sla iter) st) = "judge" from by
            simp only [determine_next_step, String.reduceEq, reduceIte]
            rw [if_neg hcond]]
          refine Or.inr (Or.inr (Or.inr (Or.inr (Or.inr (Or.inl ⟨rfl, ks, m, ?_⟩)))))
          rw [pairsL_snoc]
          simp
      · obtain ⟨ks, m, h2⟩ := hks
        subst h1
        rw [h2]
        by_cases hcond : strLower ((slaUpdate (sla iter) st).judge_result_action.getD "accept")
              = "retry"
            ∧ (slaUpdate (sla iter) st).retry_count < (slaUpdate (sla iter) st).max_retries
        · rw [show determine_next_step "judge" (slaUpdate (sla iter) st) = "execution" from by
            simp only [determine_next_step, String.reduceEq, reduceIte]
            rw [if_pos hcond]]
          refine Or.inr (Or.inr (Or.inr (Or.inl ⟨rfl, ks ++ [m], 0, ?_⟩)))
          rw [blocksJoin_snoc]
          simp [pairsL]
        · rw [show determine_next_step "judge" (slaUpdate (sla iter) st) = "delivery" from by
            simp only [determine_next_step, String.reduceEq, reduceIte]
            rw [if_neg hcond]]
          refine Or.inr (Or.inr (Or.inr (Or.inr (Or.inr (Or.inr ⟨rfl, ks ++ [m],
            by simp, ?_⟩)))))
          rw [blocksJoin_snoc]
          simp
      · exact absurd h1 hdel

/-- The invariant holds at the start of the supervisor loop. -/
theorem initState_inv (r : Request) : LoopInv "intake" none (initState r) := by
  refine ⟨by decide, by simp [initState], Or.inl ⟨rfl, by simp [initState]⟩,
    by simp [initState], ?_, ?_, ?_, ?_, ?_, ?_⟩
  · simp [initState, retryPairs]
  · intro h5
    exact absurd h5 (by decide)
  · intro h5
    exact absurd h5 (by decide)
  · intro h5
    exact absurd h5 (by decide)
  · simp [initState]
  · exact Or.inl ⟨rfl, by simp [initState]⟩

/-- Every reachable loop-top configuration satisfies the invariant. -/
theorem LoopReach_inv {w : Workers} {auto : Bool} {sla : Nat → Bool} {r : Request}
    {iter : Nat} {cur : String} {prev : Option String} {s : WorkflowState}
    (h : LoopReach w auto sla r iter cur prev s) : LoopInv cur prev s := by
  induction h with
  | init => exact initState_inv r
  | step hr hit ih => exact loopIter_next_inv _ _ _ _ ih hit

/-- One-step unfolding of the fuel-indexed loop. -/
theorem runLoop_succ (w : Workers) (auto : Bool) (sla : Nat → Bool) (n iter : Nat)
    (cur : String) (prev : Option String) (s : WorkflowState) :
    runLoop w auto sla (n + 1) iter cur prev s =
      match loopIter w auto sla iter cur prev s with
      | .pausedReturn s2 => .pausedReturn s2
      | .raised msg s2 => .raised msg s2
      | .exited c s2 => .exited c s2
      | .next iter2 cur2 prev2 s2 => runLoop w auto sla n iter2 cur2 prev2 s2 := rfl

/-- With fuel above the loop measure, the loop never runs out of fuel. -/
theorem runLoop_ne_fuelOut (w : Workers) (auto : Bool) (sla : Nat → Bool) :
    ∀ (fuel iter : Nat) (cur : String) (prev : Option String) (s : WorkflowState),
      loopMeasure cur prev s < fuel →
      runLoop w auto sla fuel iter cur prev s ≠ .fuelOut := by
  intro fuel
  induction fuel with
  | zero =>
    intro iter cur prev s hm
    omega
  | succ n ih =>
    intro iter cur prev s hm
    rw [runLoop_succ]
    rcases hit : loopIter w auto sla iter cur prev s with s2 | ⟨m, s2⟩ | ⟨c, s2⟩ | ⟨j2, c2, p2, s2⟩
    · intro hcon
      exact absurd (show LoopOut.pausedReturn s2 = LoopOut.fuelOut from hcon) (by simp)
    · intro hcon
      exact absurd (show LoopOut.raised m s2 = LoopOut.fuelOut from hcon) (by simp)
    · intro hcon
      exact absurd (show LoopOut.exited c s2 = LoopOut.fuelOut from hcon) (by simp)
    · show runLoop w auto sla n j2 c2 p2 s2 ≠ LoopOut.fuelOut
      exact ih j2 c2 p2 s2 (by
        have := loopIter_next_measure w auto sla iter cur prev s hit
        omega)

/-- A while-loop exit always happens at the delivery step, in a state
satisfying the invariant. -/
theorem runLoop_exited (w : Workers) (auto : Bool) (sla : Nat → Bool) :
    ∀ (fuel iter : Nat) (cur : String) (prev : Option String) (s : WorkflowState)
      (c2 : String) (s2 : WorkflowState), LoopInv cur prev s →
      runLoop w auto sla fuel iter cur prev s = .exited c2 s2 →
      c2 = "delivery" ∧ ∃ prev0, LoopInv "delivery" prev0 s2 := by
  intro fuel
  induction fuel with
  | zero =>
    intro iter cur prev s c2 s2 _ hr
    cases hr
  | succ n ih =>
    intro iter cur prev s c2 s2 inv hr
    rcases hit : loopIter w auto sla iter cur prev s with s3 | ⟨m, s3⟩ | ⟨c, s3⟩ | ⟨j2, c3, p3, s3⟩ <;>
      rw [runLoop_succ, hit] at hr
    · exact absurd (show LoopOut.pausedReturn s3 = LoopOut.exited c2 s2 from hr) (by simp)
    · exact absurd (show LoopOut.raised m s3 = LoopOut.exited c2 s2 from hr) (by simp)
    · replace hr : LoopOut.exited c s3 = LoopOut.exited c2 s2 := hr
      rw [LoopOut.exited.injEq] at hr
      obtain ⟨h1, h2⟩ := hr
      subst h1
      subst h2
      obtain ⟨hed, hcc, hss⟩ := loopIter_exited_cases w auto sla iter cur prev s hit
      subst hcc
      subst hss
      rcases hed with hed | hed
      · exact absurd hed inv.cur_ne_end
      · subst hed
        exact ⟨rfl, prev, inv⟩
    · replace hr : runLoop w auto sla n j2 c3 p3 s3 = LoopOut.exited c2 s2 := hr
      exact ih j2 c3 p3 s3 c2 s2 (loopIter_next_inv w auto sla iter inv hit) hr

/-- A worker exception escapes from a concrete step execution in a
configuration satisfying the invariant. -/
theorem runLoop_raised (w : Workers) (auto : Bool) (sla : Nat → Bool) :
    ∀ (fuel iter : Nat) (cur : String) (prev : Option String) (s : WorkflowState)
      (msg : String) (st : WorkflowState), LoopInv cur prev s →
      runLoop w auto sla fuel iter cur prev s = .raised msg st →
      ∃ cur0 prev0 s0, LoopInv cur0 prev0 s0 ∧ cur0 ≠ "end" ∧ cur0 ≠ "delivery"
        ∧ cur0 ≠ "pause_for_approval"
        ∧ executeStep w cur0 (appendRoute (retryGate cur0 prev0 s0) cur0)
          = .error (msg, st) := by
  intro fuel
  induction fuel with
  | zero =>
    intro iter cur prev s msg st _ hr
    cases hr
  | succ n ih =>
    intro iter cur prev s msg st inv hr
    rcases hit : loopIter w auto sla iter cur prev s with s3 | ⟨m, s3⟩ | ⟨c, s3⟩ | ⟨j2, c3, p3, s3⟩ <;>
      rw [runLoop_succ, hit] at hr
    · exact absurd (show LoopOut.pausedReturn s3 = LoopOut.raised msg st from hr) (by simp)
    · replace hr : LoopOut.raised m s3 = LoopOut.raised msg st := hr
      rw [LoopOut.raised.injEq] at hr
      obtain ⟨h1, h2⟩ := hr
      subst h1
      subst h2
      obtain ⟨he, hd, hp, hex⟩ := loopIter_raised_cases w auto sla iter cur prev s hit
      exact ⟨cur, prev, s, inv, he, hd, hp, hex⟩
    · exact absurd (show LoopOut.exited c s3 = LoopOut.raised msg st from hr) (by simp)
    · replace hr : runLoop w auto sla n j2 c3 p3 s3 = LoopOut.raised msg st := hr
      exact ih j2 c3 p3 s3 msg st (loopIter_next_inv w auto sla iter inv hit) hr

/-- A paused return happens only with auto-approve off, at the approval
gate, in a configuration satisfying the invariant. -/
theorem runLoop_paused (w : Workers) (auto : Bool) (sla : Nat → Bool) :
    ∀ (fuel iter : Nat) (cur : String) (prev : Option String) (s : WorkflowState)
      (s2 : WorkflowState), LoopInv cur prev s →
      runLoop w auto sla fuel iter cur prev s = .pausedReturn s2 →
      auto = false ∧ ∃ prev0 s0, LoopInv "pause_for_approval" prev0 s0
        ∧ s2 = pauseUpd s0 := by
  intro fuel
  induction fuel with
  | zero =>
    intro iter cur prev s s2 _ hr
    cases hr
  | succ n ih =>
    intro iter cur prev s s2 inv hr
    rcases hit : loopIter w auto sla iter cur prev s with s3 | ⟨m, s3⟩ | ⟨c, s3⟩ | ⟨j2, c3, p3, s3⟩ <;>
      rw [runLoop_succ, hit] at hr
    · replace hr : LoopOut.pausedReturn s3 = LoopOut.pausedReturn s2 := hr
      rw [LoopOut.pausedReturn.injEq] at hr
      subst hr
      obtain ⟨hcp, ha, hs3⟩ := loopIter_paused_cases w auto sla iter cur prev s hit
      subst hcp
      subst hs3
      exact ⟨ha, prev, s, inv, rfl⟩
    · exact absurd (show LoopOut.raised m s3 = LoopOut.pausedReturn s2 from hr) (by simp)
    · exact absurd (show LoopOut.exited c s3 = LoopOut.pausedReturn s2 from hr) (by simp)
    · replace hr : runLoop w auto sla n j2 c3 p3 s3 = LoopOut.pausedReturn s2 := hr
      exact ih j2 c3 p3 s3 s2 (loopIter_next_inv w auto sla iter inv hit) hr

/-- The fuel orchestrate supplies always suffices. -/
theorem orchestrateE_isSome (w : Workers) (auto : Bool) (sla : Nat → Bool) (r : Request) :
    ∃ out, orchestrateE w auto sla r = some out := by
  unfold orchestrateE
  have hm : loopMeasure "intake" none (initState r) < fuelFor r := by
    unfold loopMeasure fuelFor stepRank
    rw [effRetry_gate_false (gateFires_ne_exec _ _ (by decide))]
    have h1 : (initState r).max_retries = r.max_retries := by simp [initState]
    have h2 : (initState r).retry_count = 0 := by simp [initState]
    rw [h1, h2]
    simp only [String.reduceEq, reduceIte]
    omega
  rcases hrl : runLoop w auto sla (fuelFor r) 0 "intake" none (initState r) with
    s2 | ⟨m, s2⟩ | ⟨c, s2⟩ | _
  · exact ⟨_, rfl⟩
  · exact ⟨_, rfl⟩
  · exact ⟨_, rfl⟩
  · exact absurd hrl (runLoop_ne_fuelOut w auto sla (fuelFor r) 0 "intake" none
      (initState r) hm)

theorem pauseUpd_facts (s : WorkflowState) :
    (pauseUpd s).status = .paused
    ∧ (pauseUpd s).pause_reason = some "Awaiting human approval"
    ∧ (pauseUpd s).run_status = "paused"
    ∧ (pauseUpd s).approval_granted = s.approval_granted
    ∧ (pauseUpd s).route_history = s.route_history
    ∧ (pauseUpd s).retry_count = s.retry_count
    ∧ (pauseUpd s).max_retries = s.max_retries
    ∧ (pauseUpd s).step_status = s.step_status := by
  simp [pauseUpd]

theorem failHandler_facts (msg : String) (s : WorkflowState) :
    (failHandler msg s).status = .failed
    ∧ (failHandler msg s).run_status = "failed"
    ∧ (failHandler msg s).end_time_set = true
    ∧ msg ∈ (failHandler msg s).errors
    ∧ (failHandler msg s).route_history = s.route_history
    ∧ (failHandler msg s).retry_count = s.retry_count
    ∧ (failHandler msg s).max_retries = s.max_retries
    ∧ (failHandler msg s).pause_reason = s.pause_reason
    ∧ (failHandler msg s).approval_granted = s.approval_granted := by
  unfold failHandler
  refine ⟨by simp, by simp, by simp, ?_, by simp, by simp, by simp, by simp, by simp⟩
  rw [addEvent_errors]
  exact addError_mem _ msg

theorem deliveryEnter_facts (s : WorkflowState) :
    (deliveryEnter s).route_history = s.route_history ++ ["delivery"]
    ∧ (deliveryEnter s).retry_count = s.retry_count
    ∧ (deliveryEnter s).max_retries = s.max_retries
    ∧ (deliveryEnter s).status = .completed
    ∧ (deliveryEnter s).end_time_set = true
    ∧ (deliveryEnter s).pause_reason = s.pause_reason
    ∧ (deliveryEnter s).approval_granted = s.approval_granted := by
  simp [deliveryEnter]

theorem finishRun_facts (s : WorkflowState) :
    (finishRun s).status = .completed
    ∧ (finishRun s).end_time_set = true
    ∧ (finishRun s).route_history = s.route_history
    ∧ (finishRun s).retry_count = s.retry_count
    ∧ (finishRun s).max_retries = s.max_retries
    ∧ (finishRun s).pause_reason = s.pause_reason
    ∧ (finishRun s).approval_granted = s.approval_granted := by
  simp [finishRun]

/-- The run_status finishRun assigns is the derivation on its own result:
the final state is self-consistent. -/
theorem finishRun_run_status (s : WorkflowState) :
    (finishRun s).run_status
      = deriveRunStatus { s with status := .completed, end_time_set := true }
    ∧ deriveRunStatus (finishRun s)
      = deriveRunStatus { s with status := .completed, end_time_set := true } := by
  constructor
  · simp [finishRun]
  · unfold finishRun deriveRunStatus qaFailed
    simp

/-- A successful delivery execution changes none of the inputs of the
run-status derivation. -/
theorem executeStep_delivery_ok (w : Workers) (s st : WorkflowState)
    (h : executeStep w "delivery" s = .ok st) :
    st.status = s.status ∧ st.errors = s.errors ∧ st.warnings = s.warnings
    ∧ st.qa_result_status = s.qa_result_status
    ∧ st.judge_result_action = s.judge_result_action
    ∧ st.retry_count = s.retry_count ∧ st.max_retries = s.max_retries
    ∧ st.route_history = s.route_history ∧ st.end_time_set = s.end_time_set
    ∧ st.pause_reason = s.pause_reason ∧ st.approval_granted = s.approval_granted := by
  unfold executeStep at h
  rw [Workers.get_delivery] at h
  dsimp only at h
  cases hr : w.delivery (stepBegin "delivery" s) with
  | error m2 => rw [hr] at h; cases h
  | ok result =>
    rw [hr] at h
    dsimp only at h
    rw [Except.ok.injEq] at h
    subst h
    simp [refreshDeliveryMetadata, stepFinish, stepBegin, mergeResult]

/-- The run-status derivation depends only on the listed fields. -/
theorem deriveRunStatus_congr (s1 s2 : WorkflowState) (h1 : s1.status = s2.status)
    (h2 : s1.errors = s2.errors) (h3 : s1.warnings = s2.warnings)
    (h4 : s1.qa_result_status = s2.qa_result_status)
    (h5 : s1.judge_result_action = s2.judge_result_action)
    (h6 : s1.retry_count = s2.retry_count) :
    deriveRunStatus s1 = deriveRunStatus s2 := by
  unfold deriveRunStatus qaFailed
  rw [h1, h2, h3, h4, h5, h6]

/-- Unfolding of finalize at the delivery exit. -/
theorem finalize_delivery_eq (w : Workers) (s : WorkflowState) :
    finalize w "delivery" s =
      match executeStep w "delivery" (deliveryEnter s) with
      | .error (msg, st) =>
          { state := failHandler msg st, rsLog := [(deliveryEnter s).run_status, "failed"],
            raisedMsg := some msg }
      | .ok st =>
          { state := finishRun st,
            rsLog := [(deliveryEnter s).run_status, (finishRun st).run_status],
            raisedMsg := none } := by
  unfold finalize
  rw [if_pos rfl]

/-- Exhaustive case analysis of an orchestrate run: it pauses at the
approval gate, a worker raises inside the loop, or the loop exits at
delivery and finalization runs. -/
theorem orchestrateE_cases (w : Workers) (auto : Bool) (sla : Nat → Bool) (r : Request)
    {out : FinalOut} (h : orchestrateE w auto sla r = some out) :
    (∃ prev0 s0, LoopInv "pause_for_approval" prev0 s0 ∧ auto = false
      ∧ out = { state := pauseUpd s0, rsLog := [], raisedMsg := none })
    ∨ (∃ msg cur0 prev0 s0 st, LoopInv cur0 prev0 s0 ∧ cur0 ≠ "end" ∧ cur0 ≠ "delivery"
        ∧ cur0 ≠ "pause_for_approval"
        ∧ executeStep w cur0 (appendRoute (retryGate cur0 prev0 s0) cur0) = .error (msg, st)
        ∧ out = { state := failHandler msg st, rsLog := ["failed"], raisedMsg := some msg })
    ∨ (∃ prev0 s0, LoopInv "delivery" prev0 s0 ∧ out = finalize w "delivery" s0) := by
  unfold orchestrateE at h
  rcases hrl : runLoop w auto sla (fuelFor r) 0 "intake" none (initState r) with
    s2 | ⟨m, st⟩ | ⟨c, s2⟩ | _ <;> rw [hrl] at h
  · rw [Option.some.injEq] at h
    obtain ⟨ha, prev0, s0, inv0, hs2⟩ := runLoop_paused w auto sla (fuelFor r) 0 "intake"
      none (initState r) s2 (initState_inv r) hrl
    exact Or.inl ⟨prev0, s0, inv0, ha, by rw [← h, hs2]⟩
  · rw [Option.some.injEq] at h
    obtain ⟨cur0, prev0, s0, inv0, he, hd, hp, hex⟩ := runLoop_raised w auto sla (fuelFor r)
      0 "intake" none (initState r) m st (initState_inv r) hrl
    exact Or.inr (Or.inl ⟨m, cur0, prev0, s0, st, inv0, he, hd, hp, hex, h.symm⟩)
  · rw [Option.some.injEq] at h
    obtain ⟨hc, prev0, inv0⟩ := runLoop_exited w auto sla (fuelFor r) 0 "intake" none
      (initState r) c s2 (initState_inv r) hrl
    subst hc
    exact Or.inr (Or.inr ⟨prev0, s2, inv0, h.symm⟩)
  · cases h

/-- The state a loop-raised exception carries satisfies the bookkeeping
invariants. -/
theorem raisedState_facts {w : Workers} {cur0 : String} {prev0 : Option String}
    {s0 st : WorkflowState} {msg : String} (inv0 : LoopInv cur0 prev0 s0)
    (hex : executeStep w cur0 (appendRoute (retryGate cur0 prev0 s0) cur0)
      = .error (msg, st)) :
    st.retry_count = effRetry cur0 prev0 s0 ∧ st.max_retries = s0.max_retries
    ∧ st.route_history = s0.route_history ++ [cur0] ∧ st.status = .in_progress := by
  obtain ⟨hsts, hrc1, hmr1, hrh1, -, -, -, -, -, -⟩ := executeStep_error_frame _ _ _ _ _ hex
  refine ⟨?_, ?_, ?_, ?_⟩
  · rw [hrc1]
    simp [appendRoute, retryGate_retry_count]
  · rw [hmr1]
    simp [appendRoute]
  · rw [hrh1]
    simp [appendRoute]
  · rw [hsts]
    simp [appendRoute]
    exact inv0.status_inprog

/-- Bookkeeping facts about every state record orchestrate hands back:
the retry budget invariant, the retry/history correspondence, the absence
of the approval gate from the route history, the pause consistency, and
the failure recording. -/
theorem orchestrateE_state_facts (w : Workers) (auto : Bool) (sla : Nat → Bool)
    (r : Request) {out : FinalOut} (h : orchestrateE w auto sla r = some out) :
    out.state.retry_count ≤ out.state.max_retries
    ∧ out.state.retry_count = retryPairs out.state.route_history
    ∧ "pause_for_approval" ∉ out.state.route_history
    ∧ (out.state.status = .paused →
        out.state.pause_reason ≠ none ∧ out.state.approval_granted = none)
    ∧ (∀ msg, out.raisedMsg = some msg → out.state.status = .failed
        ∧ out.state.run_status = "failed" ∧ out.state.end_time_set = true
        ∧ msg ∈ out.state.errors) := by
  rcases orchestrateE_cases w auto sla r h with
    ⟨prev0, s0, inv0, -, hout⟩
    | ⟨msg, cur0, prev0, s0, st, inv0, -, hdel, hpau, hex, hout⟩
    | ⟨prev0, s0, inv0, hout⟩
  · subst hout
    obtain ⟨hp1, hp2, -, hp4, hp5, hp6, hp7, -⟩ := pauseUpd_facts s0
    refine ⟨?_, ?_, ?_, ?_, ?_⟩
    · show (pauseUpd s0).retry_count ≤ (pauseUpd s0).max_retries
      rw [hp6, hp7]
      exact inv0.rc_le
    · show (pauseUpd s0).retry_count = retryPairs (pauseUpd s0).route_history
      rw [hp6, hp5]
      exact inv0.rc_pairs
    · show "pause_for_approval" ∉ (pauseUpd s0).route_history
      rw [hp5]
      exact inv0.no_pause_rh
    · intro _
      constructor
      · show (pauseUpd s0).pause_reason ≠ none
        rw [hp2]
        simp
      · show (pauseUpd s0).approval_granted = none
        rw [hp4]
        exact inv0.pause_unset rfl
    · intro m hm
      replace hm : (none : Option String) = some m := hm
      cases hm
  · subst hout
    obtain ⟨hrc, hmr, hrh, hsts⟩ := raisedState_facts inv0 hex
    obtain ⟨hf1, hf2, hf3, hf4, hf5, hf6, hf7, -, -⟩ := failHandler_facts msg st
    refine ⟨?_, ?_, ?_, ?_, ?_⟩
    · show (failHandler msg st).retry_count ≤ (failHandler msg st).max_retries
      rw [hf6, hf7, hrc, hmr]
      exact effRetry_le _ _ _ inv0.rc_le
    · show (failHandler msg st).retry_count = retryPairs (failHandler msg st).route_history
      rw [hf6, hf5, hrc, hrh]
      exact effRetry_pairs inv0
    · show "pause_for_approval" ∉ (failHandler msg st).route_history
      rw [hf5, hrh]
      intro hmem
      rcases List.mem_append.mp hmem with hm | hm
      · exact inv0.no_pause_rh hm
      · simp at hm
        exact hpau hm.symm
    · intro hcon
      replace hcon : (failHandler msg st).status = WorkflowStatus.paused := hcon
      rw [hf1] at hcon
      cases hcon
    · intro m hm
      replace hm : some msg = some m := hm
      injection hm with hm2
      subst hm2
      exact ⟨hf1, hf2, hf3, hf4⟩
  · subst hout
    rw [finalize_delivery_eq]
    obtain ⟨hd1, hd2, hd3, hd4, hd5, hd6, hd7⟩ := deliveryEnter_facts s0
    have hpairsD : retryPairs (s0.route_history ++ ["delivery"])
        = retryPairs s0.route_history := by
      rw [retryPairs_snoc]
      simp
    rcases hex : executeStep w "delivery" (deliveryEnter s0) with ⟨msg, st⟩ | st
    · obtain ⟨hsts, hrc1, hmr1, hrh1, -, -, -, -, -, -⟩ :=
        executeStep_error_frame _ _ _ _ _ hex
      obtain ⟨hf1, hf2, hf3, hf4, hf5, hf6, hf7, -, -⟩ := failHandler_facts msg st
      refine ⟨?_, ?_, ?_, ?_, ?_⟩
      · show (failHandler msg st).retry_count ≤ (failHandler msg st).max_retries
        rw [hf6, hf7, hrc1, hmr1, hd2, hd3]
        exact inv0.rc_le
      · show (failHandler msg st).retry_count = retryPairs (failHandler msg st).route_history
        rw [hf6, hf5, hrc1, hrh1, hd2, hd1, hpairsD]
        exact inv0.rc_pairs
      · show "pause_for_approval" ∉ (failHandler msg st).route_history
        rw [hf5, hrh1, hd1]
        intro hmem
        rcases List.mem_append.mp hmem with hm | hm
        · exact inv0.no_pause_rh hm
        · simp at hm
      · intro hcon
        replace hcon : (failHandler msg st).status = WorkflowStatus.paused := hcon
        rw [hf1] at hcon
        cases hcon
      · intro m hm
        replace hm : some msg = some m := hm
        injection hm with hm2
        subst hm2
        exact ⟨hf1, hf2, hf3, hf4⟩
    · obtain ⟨hsts, herr, hwar, hqa, hja, hrc1, hmr1, hrh1, -, -, -⟩ :=
        executeStep_delivery_ok _ _ _ hex
      obtain ⟨hg1, hg2, hg3, hg4, hg5, hg6, hg7⟩ := finishRun_facts st
      refine ⟨?_, ?_, ?_, ?_, ?_⟩
      · show (finishRun st).retry_count ≤ (finishRun st).max_retries
        rw [hg4, hg5, hrc1, hmr1, hd2, hd3]
        exact inv0.rc_le
      · show (finishRun st).retry_count = retryPairs (finishRun st).route_history
        rw [hg4, hg3, hrc1, hrh1, hd2, hd1, hpairsD]
        exact inv0.rc_pairs
      · show "pause_for_approval" ∉ (finishRun st).route_history
        rw [hg3, hrh1, hd1]
        intro hmem
        rcases List.mem_append.mp hmem with hm | hm
        · exact inv0.no_pause_rh hm
        · simp at hm
      · intro hcon
        replace hcon : (finishRun st).status = WorkflowStatus.paused := hcon
        rw [hg1] at hcon
        cases hcon
      · intro m hm
        replace hm : (none : Option String) = some m := hm
        cases hm

theorem c9Out_eq : orchestrateE cwOk true slaOff reqDefault = some c9Out := by decide

theorem c3Out_eq : orchestrateE cwRaise true slaOff reqDefault = some c3Out := by decide

theorem c8Out_eq : orchestrateE cwApproval false slaOff reqDefault = some c8Out := by decide

/-- The two post-exit run_status computations agree on the successful
delivery path, and the failure path overrides with failed. -/
theorem finalize_rsLog_facts (w : Workers) (s0 : WorkflowState) :
    (∀ msg st, executeStep w "delivery" (deliveryEnter s0) = .error (msg, st) →
      (finalize w "delivery" s0).rsLog = [(deliveryEnter s0).run_status, "failed"]
        ∧ (finalize w "delivery" s0).state.run_status = "failed"
        ∧ (finalize w "delivery" s0).raisedMsg = some msg)
    ∧ (∀ st, executeStep w "delivery" (deliveryEnter s0) = .ok st →
      ∃ v, (finalize w "delivery" s0).rsLog = [v, v]
        ∧ (finalize w "delivery" s0).state.run_status = v
        ∧ v = deriveRunStatus (finalize w "delivery" s0).state
        ∧ (finalize w "delivery" s0).raisedMsg = none) := by
  have hv1 : (deliveryEnter s0).run_status = deriveRunStatus (deliveryEnter s0) := by
    have hcg : deriveRunStatus (deliveryEnter s0)
        = deriveRunStatus { s0 with
            route_history := s0.route_history ++ ["delivery"],
            status := .completed, end_time_set := true } :=
      deriveRunStatus_congr _ _ (by simp [deliveryEnter]) (by simp [deliveryEnter])
        (by simp [deliveryEnter]) (by simp [deliveryEnter]) (by simp [deliveryEnter])
        (by simp [deliveryEnter])
    rw [hcg]
    simp [deliveryEnter]
  constructor
  · intro msg st hex
    have hfin : finalize w "delivery" s0
        = ⟨failHandler msg st, [(deliveryEnter s0).run_status, "failed"], some msg⟩ := by
      rw [finalize_delivery_eq, hex]
    rw [hfin]
    obtain ⟨hf1, hf2, -⟩ := failHandler_facts msg st
    exact ⟨rfl, hf2, rfl⟩
  · intro st hex
    have hfin : finalize w "delivery" s0
        = ⟨finishRun st, [(deliveryEnter s0).run_status, (finishRun st).run_status],
            none⟩ := by
      rw [finalize_delivery_eq, hex]
    rw [hfin]
    obtain ⟨hsts, herr, hwar, hqa, hja, hrc1, -, -, -, -, -⟩ :=
      executeStep_delivery_ok _ _ _ hex
    have hst2 : (deliveryEnter s0).status = WorkflowStatus.completed :=
      (deliveryEnter_facts s0).2.2.2.1
    have hveq : (finishRun st).run_status = (deliveryEnter s0).run_status := by
      rw [(finishRun_run_status st).1, hv1]
      exact deriveRunStatus_congr _ _ (by simp [hst2]) (by simp [herr]) (by simp [hwar])
        (by simp [hqa]) (by simp [hja]) (by simp [hrc1])
    refine ⟨(finishRun st).run_status, by rw [hveq], rfl, ?_, rfl⟩
    rw [(finishRun_run_status st).2, (finishRun_run_status st).1]

/-! ## C2: retry budget and retry/history correspondence -/

/-- C2: In every run and for every behavior of the step workers, at every
loop-top configuration (i.e. right after a routing decision) and in every
state record orchestrate returns, 0 ≤ retry_count ≤ max_retries holds
(retry_count is a Nat, so the lower bound is intrinsic), and retry_count
equals the number of places in route_history where a qa or judge entry is
immediately followed by a repeated execution entry — so each increment
corresponds to exactly one qa-fail or judge-retry routing decision recorded
there. -/
theorem C2_retry_budget (w : Workers) (auto : Bool) (sla : Nat → Bool) (r : Request) :
    (∀ iter cur prev s, LoopReach w auto sla r iter cur prev s →
      s.retry_count ≤ s.max_retries ∧ s.retry_count = retryPairs s.route_history)
    ∧ (∀ out, orchestrateE w auto sla r = some out →
      out.state.retry_count ≤ out.state.max_retries
      ∧ out.state.retry_count = retryPairs out.state.route_history) := by
  constructor
  · intro iter cur prev s hr
    have inv := LoopReach_inv hr
    exact ⟨inv.rc_le, inv.rc_pairs⟩
  · intro out h
    obtain ⟨h1, h2, -, -, -⟩ := orchestrateE_state_facts w auto sla r h
    exact ⟨h1, h2⟩

/-- Witness for C2 at the initial configuration and at the final state of
a concrete benign run. -/
theorem C2_retry_budget_witness :
    ((initState reqDefault).retry_count ≤ (initState reqDefault).max_retries
      ∧ (initState reqDefault).retry_count = retryPairs (initState reqDefault).route_history)
    ∧ c9Out.state.retry_count ≤ c9Out.state.max_retries :=
  ⟨(C2_retry_budget cwOk true slaOff reqDefault).1 0 "intake" none (initState reqDefault)
      LoopReach.init,
    ((C2_retry_budget cwOk true slaOff reqDefault).2 c9Out c9Out_eq).1⟩

/-! ## C3: the loop boundary never propagates exceptions -/

/-- C3: For every request and every behavior of the step workers
(including workers that raise), orchestrate returns a State Record — the
instrumented run always produces some output, never an exception and never
fuel exhaustion — and whenever a worker raised (the recorded raisedMsg),
the returned state has status failed, run_status "failed", the end time
set, and the exception message recorded in errors. -/
theorem C3_no_exception_escape (w : Workers) (auto : Bool) (sla : Nat → Bool)
    (r : Request) :
    ∃ out, orchestrateE w auto sla r = some out
      ∧ ∀ msg, out.raisedMsg = some msg →
        out.state.status = .failed ∧ out.state.run_status = "failed"
          ∧ out.state.end_time_set = true ∧ msg ∈ out.state.errors := by
  obtain ⟨out, hout⟩ := orchestrateE_isSome w auto sla r
  exact ⟨out, hout, (orchestrateE_state_facts w auto sla r hout).2.2.2.2⟩

/-- Witness for C3: the run whose execution worker raises "boom" returns a
failed state recording the message. -/
theorem C3_no_exception_escape_witness :
    orchestrateE cwRaise true slaOff reqDefault = some c3Out
      ∧ c3Out.state.status = .failed ∧ c3Out.state.run_status = "failed"
      ∧ c3Out.state.end_time_set = true ∧ "boom" ∈ c3Out.state.errors := by
  obtain ⟨out, hout, hprop⟩ := C3_no_exception_escape cwRaise true slaOff reqDefault
  have he : out = c3Out := by
    have := hout.symm.trans c3Out_eq
    injection this
  subst he
  exact ⟨hout, hprop "boom" (by decide)⟩

/-! ## C8: pause consistency (corrected) -/

/-- C8 counterexample: in the approval-requesting run, the loop-top
configuration right after the planner step has current step
pause_for_approval, status still in_progress, approval_granted unset, and
pause_reason already non-null (set by the planner merge from
approval_reason) — refuting the claimed two-way correspondence between
status = paused and (pause_reason non-null with approval unset). -/
theorem C8_pause_iff_counterexample :
    LoopReach cwApproval true slaOff reqDefault
      c8Step2.1 c8Step2.2.1 c8Step2.2.2.1 c8Step2.2.2.2
    ∧ c8Step2.2.2.2.status ≠ .paused
    ∧ c8Step2.2.2.2.pause_reason ≠ none
    ∧ c8Step2.2.2.2.approval_granted = none := by
  refine ⟨?_, by decide, by decide, by decide⟩
  have h1 : loopIter cwApproval true slaOff 0 "intake" none (initState reqDefault)
      = .next c8Step1.1 c8Step1.2.1 c8Step1.2.2.1 c8Step1.2.2.2 := by decide
  have h2 : loopIter cwApproval true slaOff c8Step1.1 c8Step1.2.1 c8Step1.2.2.1
        c8Step1.2.2.2
      = .next c8Step2.1 c8Step2.2.1 c8Step2.2.2.1 c8Step2.2.2.2 := by decide
  exact LoopReach.step (LoopReach.step LoopReach.init h1) h2

/-- C8 amended: the forward direction holds at every point — at every
reachable loop-top configuration and in every state record orchestrate
returns, status = paused implies pause_reason is non-null and
approval_granted is unset.  The converse fails (see the counterexample):
the planner merge may set pause_reason from approval_reason while the run
is still in progress. -/
theorem C8_pause_forward (w : Workers) (auto : Bool) (sla : Nat → Bool) (r : Request) :
    (∀ iter cur prev s, LoopReach w auto sla r iter cur prev s → s.status = .paused →
      s.pause_reason ≠ none ∧ s.approval_granted = none)
    ∧ (∀ out, orchestrateE w auto sla r = some out → out.state.status = .paused →
      out.state.pause_reason ≠ none ∧ out.state.approval_granted = none) := by
  constructor
  · intro iter cur prev s hr hp
    have inv := LoopReach_inv hr
    rw [inv.status_inprog] at hp
    cases hp
  · intro out h
    exact (orchestrateE_state_facts w auto sla r h).2.2.2.1

/-- Witness for C8 amended at a concrete paused run. -/
theorem C8_pause_forward_witness :
    c8Out.state.pause_reason ≠ none ∧ c8Out.state.approval_granted = none :=
  (C8_pause_forward cwApproval false slaOff reqDefault).2 c8Out c8Out_eq (by decide)

/-! ## C9: terminal run_status assignment (corrected) -/

/-- C9 counterexample: in a benign completed run, the terminal run_status
is assigned twice after the loop exits (master_agent.py lines 124 and
130), not exactly once as claimed — the instrumented post-exit assignment
log has length two. -/
theorem C9_single_assignment_counterexample :
    orchestrateE cwOk true slaOff reqDefault = some c9Out
    ∧ c9Out.raisedMsg = none
    ∧ c9Out.rsLog = ["completed", "completed"]
    ∧ c9Out.rsLog.length ≠ 1 :=
  ⟨c9Out_eq, by decide, by decide, by decide⟩

/-- C9 amended: the terminal run_status label is computed at the point the
loop exits normally and recomputed once, idempotently, after the delivery
step runs: both post-exit assignments carry the same label, the returned
record carries that label and it equals the derivation on the final state;
a failure path instead ends the log with failed, which overrides any other
label.  A paused early return makes no post-exit assignment. -/
theorem C9_terminal_run_status (w : Workers) (auto : Bool) (sla : Nat → Bool)
    (r : Request) :
    ∀ out, orchestrateE w auto sla r = some out →
      (out.raisedMsg = none → out.rsLog = []
        ∨ ∃ v, out.rsLog = [v, v] ∧ out.state.run_status = v
          ∧ v = deriveRunStatus out.state)
      ∧ (∀ msg, out.raisedMsg = some msg → out.state.run_status = "failed"
        ∧ (out.rsLog = ["failed"] ∨ ∃ v, out.rsLog = [v, "failed"])) := by
  intro out h
  rcases orchestrateE_cases w auto sla r h with
    ⟨prev0, s0, inv0, -, hout⟩
    | ⟨msg, cur0, prev0, s0, st, inv0, -, -, -, hex, hout⟩
    | ⟨prev0, s0, inv0, hout⟩
  · subst hout
    exact ⟨fun _ => Or.inl rfl, fun m hm => by
      replace hm : (none : Option String) = some m := hm
      cases hm⟩
  · subst hout
    constructor
    · intro hnone
      replace hnone : some msg = (none : Option String) := hnone
      cases hnone
    · intro m hm
      replace hm : some msg = some m := hm
      injection hm with hm2
      subst hm2
      exact ⟨(failHandler_facts _ st).2.1, Or.inl rfl⟩
  · subst hout
    rcases hex : executeStep w "delivery" (deliveryEnter s0) with ⟨msg, st⟩ | st
    · obtain ⟨hl1, hl2, hl3⟩ := (finalize_rsLog_facts w s0).1 msg st hex
      constructor
      · intro hnone
        rw [hl3] at hnone
        cases hnone
      · intro m hm
        rw [hl3] at hm
        injection hm with hm2
        subst hm2
        exact ⟨hl2, Or.inr ⟨(deliveryEnter s0).run_status, hl1⟩⟩
    · obtain ⟨v, hl1, hl2, hl3, hl4⟩ := (finalize_rsLog_facts w s0).2 st hex
      constructor
      · intro _
        exact Or.inr ⟨v, hl1, hl2, hl3⟩
      · intro m hm
        rw [hl4] at hm
        cases hm

/-- Witness for C9 amended: the benign run yields a doubled identical
label, and the raising run yields the failed override. -/
theorem C9_terminal_run_status_witness :
    (c9Out.rsLog = [] ∨ ∃ v, c9Out.rsLog = [v, v] ∧ c9Out.state.run_status = v
      ∧ v = deriveRunStatus c9Out.state)
    ∧ (c3Out.state.run_status = "failed"
      ∧ (c3Out.rsLog = ["failed"] ∨ ∃ v, c3Out.rsLog = [v, "failed"])) :=
  ⟨(C9_terminal_run_status cwOk true slaOff reqDefault c9Out c9Out_eq).1 (by decide),
    (C9_terminal_run_status cwRaise true slaOff reqDefault c3Out c3Out_eq).2 "boom"
      (by decide)⟩

/-! ## C10: the approval gate never enters route_history -/

/-- C10: For every run and every behavior of the step workers, the step
name pause_for_approval never appears in route_history — neither at any
reachable loop-top configuration nor in the state record orchestrate
returns: the supervisor loop intercepts the approval gate before the
append point, so only worker-executed steps are recorded. -/
theorem C10_no_pause_in_history (w : Workers) (auto : Bool) (sla : Nat → Bool)
    (r : Request) :
    (∀ iter cur prev s, LoopReach w auto sla r iter cur prev s →
      "pause_for_approval" ∉ s.route_history)
    ∧ (∀ out, orchestrateE w auto sla r = some out →
      "pause_for_approval" ∉ out.state.route_history) := by
  constructor
  · intro iter cur prev s hr
    exact (LoopReach_inv hr).no_pause_rh
  · intro out h
    exact (orchestrateE_state_facts w auto sla r h).2.2.1

/-- Witness for C10 at the initial configuration and the final state of
the approval run, which passes the approval gate. -/
theorem C10_no_pause_in_history_witness :
    "pause_for_approval" ∉ (initState reqDefault).route_history
    ∧ "pause_for_approval" ∉ c8Out.state.route_history :=
  ⟨(C10_no_pause_in_history cwApproval false slaOff reqDefault).1 0 "intake" none
      (initState reqDefault) LoopReach.init,
    (C10_no_pause_in_history cwApproval false slaOff reqDefault).2 c8Out c8Out_eq⟩

@[simp] theorem setStepStatus_step_status (s : WorkflowState) (a b : String) :
    (setStepStatus s a b).step_status = updateAssoc s.step_status a b := rfl

theorem lookupAssoc_updateAssoc_ne (l : List (String × String)) (k k2 v : String)
    (h : k ≠ k2) : lookupAssoc (updateAssoc l k2 v) k = lookupAssoc l k := by
  induction l with
  | nil =>
    simp only [updateAssoc, lookupAssoc]
    rw [if_neg (fun hh => h hh.symm)]
  | cons p rest ih =>
    obtain ⟨a, b⟩ := p
    by_cases h1 : a = k2
    · subst h1
      simp only [updateAssoc, lookupAssoc, if_pos rfl]
      rw [if_neg (fun hh => h hh.symm), if_neg (fun hh => h hh.symm)]
    · simp only [updateAssoc, lookupAssoc, if_neg h1]
      by_cases h2 : a = k
      · rw [if_pos h2, if_pos h2]
      · rw [if_neg h2, if_neg h2]
        exact ih

theorem mergeResult_planner_requires (s : WorkflowState) (r : StepResult) :
    (mergeResult s "planner" r).requires_approval = r.requires_approval := by
  unfold mergeResult
  rcases r.approval_reason with _ | reason
  all_goals dsimp only
  all_goals split_ifs <;> simp_all

theorem mergeResult_qa_status (s : WorkflowState) (r : StepResult) :
    (mergeResult s "qa" r).qa_result_status = r.qa_status := by
  unfold mergeResult
  rcases r.approval_reason with _ | reason
  all_goals dsimp only
  all_goals split_ifs <;> simp_all

theorem mergeResult_judge_action (s : WorkflowState) (r : StepResult) :
    (mergeResult s "judge" r).judge_result_action = r.judge_action := by
  unfold mergeResult
  rcases r.approval_reason with _ | reason
  all_goals dsimp only
  all_goals split_ifs <;> simp_all

/-- Evaluation of a successful non-delivery step execution. -/
theorem executeStep_ok_eval (w : Workers) (n : String) (s : WorkflowState)
    (f : WorkflowState → Except String StepResult) (res : StepResult)
    (hget : w.get n = some f) (hf : f (stepBegin n s) = .ok res) (hnd : n ≠ "delivery") :
    executeStep w n s = .ok (stepFinish n (stepBegin n s) res) := by
  unfold executeStep
  rw [hget]
  dsimp only
  rw [hf]
  dsimp only
  rw [if_neg hnd]

/-- Evaluation of one loop pass whose worker succeeds. -/
theorem loopIter_eval (w : Workers) (auto : Bool) (sla : Nat → Bool) (iter : Nat)
    (cur : String) (prev : Option String) (s : WorkflowState)
    (f : WorkflowState → Except String StepResult) (res : StepResult)
    (h1 : cur ≠ "end") (h2 : cur ≠ "delivery") (h3 : cur ≠ "pause_for_approval")
    (hget : w.get cur = some f)
    (hf : f (stepBegin cur (appendRoute (retryGate cur prev s) cur)) = .ok res) :
    loopIter w auto sla iter cur prev s
      = .next (iter + 1)
          (determine_next_step cur (slaUpdate (sla iter)
            (stepFinish cur (stepBegin cur (appendRoute (retryGate cur prev s) cur)) res)))
          (some cur)
          (slaUpdate (sla iter)
            (stepFinish cur (stepBegin cur (appendRoute (retryGate cur prev s) cur)) res)) := by
  unfold loopIter
  rw [if_neg (by rw [not_or]; exact ⟨h1, h2⟩), if_neg h3,
    executeStep_ok_eval w cur _ f res hget hf h2]

/-- Evaluation of the pause intercept with auto-approve off. -/
theorem loopIter_pause_eval (w : Workers) (sla : Nat → Bool) (iter : Nat)
    (prev : Option String) (s : WorkflowState) :
    loopIter w false sla iter "pause_for_approval" prev s = .pausedReturn (pauseUpd s) := by
  unfold loopIter
  rw [if_neg (by rw [not_or]; exact ⟨by decide, by decide⟩), if_pos rfl]
  rfl

/-- Evaluation of the pause intercept with auto-approve on. -/
theorem loopIter_autoapprove_eval (w : Workers) (sla : Nat → Bool) (iter : Nat)
    (prev : Option String) (s : WorkflowState) :
    loopIter w true sla iter "pause_for_approval" prev s
      = .next iter "execution" prev (autoApproveUpd s) := by
  unfold loopIter
  rw [if_neg (by rw [not_or]; exact ⟨by decide, by decide⟩), if_pos rfl]
  rfl

/-! ## C6: pausing on a planner approval request -/

/-- C6: For every request (with approval not pre-granted, as in the
request shape) whose intake worker succeeds and whose planner result has
requires_approval = true, when auto-approve is disabled the orchestrator
returns immediately after the planner step with status paused, a non-null
pause_reason, and step_status["execution"] still "pending" — the
execution step is never entered before the pause return. -/
theorem C6_pause_on_approval (w : Workers) (sla : Nat → Bool) (r : Request)
    (hgr : r.approval_granted = none)
    (hi : ∀ st, ∃ res, w.intake st = .ok res)
    (hp : ∀ st, ∃ res, w.planner st = .ok res ∧ res.requires_approval = true) :
    ∃ out, orchestrateE w false sla r = some out
      ∧ out.state.status = .paused
      ∧ out.state.pause_reason ≠ none
      ∧ lookupAssoc out.state.step_status "execution" = some "pending" := by
  obtain ⟨res0, hres0⟩ :=
    hi (stepBegin "intake" (appendRoute (retryGate "intake" none (initState r)) "intake"))
  have hit0 := loopIter_eval w false sla 0 "intake" none (initState r) w.intake res0
    (by decide) (by decide) (by decide) (Workers.get_intake w) hres0
  set s1 := slaUpdate (sla 0) (stepFinish "intake"
    (stepBegin "intake" (appendRoute (retryGate "intake" none (initState r)) "intake"))
    res0) with hs1
  rw [show determine_next_step "intake" s1 = "planner" from by
    simp [determine_next_step]] at hit0
  obtain ⟨res1, hres1, hreq1⟩ :=
    hp (stepBegin "planner" (appendRoute (retryGate "planner" (some "intake") s1) "planner"))
  have hit1 := loopIter_eval w false sla 1 "planner" (some "intake") s1 w.planner res1
    (by decide) (by decide) (by decide) (Workers.get_planner w) hres1
  set s2 := slaUpdate (sla 1) (stepFinish "planner"
    (stepBegin "planner" (appendRoute (retryGate "planner" (some "intake") s1) "planner"))
    res1) with hs2
  have hreq : s2.requires_approval = true := by
    rw [hs2]
    rw [slaUpdate_requires_approval]
    unfold stepFinish
    rw [addEvent_requires_approval, setStepStatus_requires_approval,
      mergeResult_planner_requires]
    exact hreq1
  have hgr2 : s2.approval_granted = none := by
    rw [hs2]
    simp only [slaUpdate_approval_granted]
    unfold stepFinish stepBegin
    simp only [addEvent_approval_granted, setStepStatus_approval_granted,
      mergeResult_approval_granted, appendRoute, retryGate_approval_granted]
    rw [hs1]
    simp only [slaUpdate_approval_granted]
    unfold stepFinish stepBegin
    simp only [addEvent_approval_granted, setStepStatus_approval_granted,
      mergeResult_approval_granted, appendRoute, retryGate_approval_granted]
    simp [initState, hgr]
  rw [show determine_next_step "planner" s2 = "pause_for_approval" from by
    simp [determine_next_step, hreq, hgr2]] at hit1
  have hit2 := loopIter_pause_eval w sla 2 (some "planner") s2
  obtain ⟨n, hn⟩ : ∃ n, fuelFor r = n + 3 := ⟨6 * r.max_retries + 5, by unfold fuelFor; omega⟩
  have hrun : runLoop w false sla (fuelFor r) 0 "intake" none (initState r)
      = .pausedReturn (pauseUpd s2) := by
    rw [hn, show n + 3 = (n + 2) + 1 from rfl, runLoop_succ, hit0]
    show runLoop w false sla (n + 2) 1 "planner" (some "intake") s1
      = .pausedReturn (pauseUpd s2)
    rw [show n + 2 = (n + 1) + 1 from rfl, runLoop_succ, hit1]
    show runLoop w false sla (n + 1) 2 "pause_for_approval" (some "planner") s2
      = .pausedReturn (pauseUpd s2)
    rw [runLoop_succ, hit2]
  refine ⟨⟨pauseUpd s2, [], none⟩, ?_, (pauseUpd_facts s2).1, ?_, ?_⟩
  · unfold orchestrateE
    rw [hrun]
  · show (pauseUpd s2).pause_reason ≠ none
    rw [(pauseUpd_facts s2).2.1]
    simp
  · show lookupAssoc (pauseUpd s2).step_status "execution" = some "pending"
    rw [(pauseUpd_facts s2).2.2.2.2.2.2.2]
    have hss : s2.step_status
        = updateAssoc (updateAssoc (updateAssoc (updateAssoc
            (initState r).step_status "intake" "in_progress") "intake" "completed")
          "planner" "in_progress") "planner" "completed" := by
      rw [hs2]
      simp only [slaUpdate_step_status]
      unfold stepFinish stepBegin
      simp only [addEvent_step_status, setStepStatus_step_status, mergeResult_step_status,
        appendRoute, retryGate_step_status]
      rw [hs1]
      simp only [slaUpdate_step_status]
      unfold stepFinish stepBegin
      simp only [addEvent_step_status, setStepStatus_step_status, mergeResult_step_status,
        appendRoute, retryGate_step_status]
    rw [hss]
    rw [lookupAssoc_updateAssoc_ne _ _ _ _ (by decide),
      lookupAssoc_updateAssoc_ne _ _ _ _ (by decide),
      lookupAssoc_updateAssoc_ne _ _ _ _ (by decide),
      lookupAssoc_updateAssoc_ne _ _ _ _ (by decide)]
    rw [show (initState r).step_status
      = stepNames.map (fun n2 => (n2, "pending")) from by simp [initState]]
    decide

/-- Witness for C6: the concrete approval-requesting run pauses with the
execution step still pending. -/
theorem C6_pause_on_approval_witness :
    ∃ out, orchestrateE cwApproval false slaOff reqDefault = some out
      ∧ out.state.status = .paused
      ∧ out.state.pause_reason ≠ none
      ∧ lookupAssoc out.state.step_status "execution" = some "pending" :=
  C6_pause_on_approval cwApproval slaOff reqDefault rfl
    (fun _ => ⟨{}, rfl⟩)
    (fun _ => ⟨{ requires_approval := true
                 approval_reason := some "Estimated runtime exceeds approval threshold." },
      rfl, rfl⟩)

/-- On reaching the delivery step the while loop exits. -/
theorem loopIter_delivery_eval (w : Workers) (auto : Bool) (sla : Nat → Bool) (iter : Nat)
    (prev : Option String) (s : WorkflowState) :
    loopIter w auto sla iter "delivery" prev s = .exited "delivery" s := by
  unfold loopIter
  rw [if_pos (Or.inr rfl)]

/-- Evaluation of a successful delivery execution. -/
theorem executeStep_delivery_eval (w : Workers) (s : WorkflowState) (res : StepResult)
    (hf : w.delivery (stepBegin "delivery" s) = .ok res) :
    executeStep w "delivery" s = .ok (stepFinish "delivery" (stepBegin "delivery" s) res) := by
  unfold executeStep
  rw [Workers.get_delivery]
  dsimp only
  rw [hf]
  dsimp only
  rw [if_pos rfl]
  rfl

/-- The retry count the worker observes when invoked. -/
theorem workerInput_retry_count (cur : String) (prev : Option String) (s : WorkflowState) :
    (stepBegin cur (appendRoute (retryGate cur prev s) cur)).retry_count
      = effRetry cur prev s := by
  simp [stepBegin, appendRoute, retryGate_retry_count]

/-- The execution/qa/execution/qa/judge tail of a forced-failure run with
retry budget one: starting at the execution step with no retries consumed,
a QA worker that fails exactly on the first attempt drives one retry and
the loop then exits at delivery with retry_count 1 and the expected route
history. -/
theorem qaRetryTail (w : Workers) (sla : Nat → Bool) (iterE n : Nat) (sE : WorkflowState)
    (hrc : sE.retry_count = 0) (hmax : sE.max_retries = 1)
    (hrh : sE.route_history = ["intake", "planner"])
    (hqa0 : ∀ st, st.retry_count = 0 → ∃ res, w.qa st = .ok res ∧ res.qa_status = some "fail")
    (hqa1 : ∀ st, st.retry_count ≠ 0 → ∃ res, w.qa st = .ok res ∧ res.qa_status = some "pass")
    (hex : ∀ st, ∃ res, w.execution st = .ok res)
    (hj : ∀ st, ∃ res, w.judge st = .ok res) :
    ∃ s7, runLoop w true sla (n + 6) iterE "execution" (some "planner") sE
        = .exited "delivery" s7
      ∧ s7.retry_count = 1
      ∧ s7.route_history
        = ["intake", "planner", "execution", "qa", "execution", "qa", "judge"] := by
  obtain ⟨resE1, hresE1⟩ := hex (stepBegin "execution"
    (appendRoute (retryGate "execution" (some "planner") sE) "execution"))
  have hit3 := loopIter_eval w true sla iterE "execution" (some "planner") sE w.execution
    resE1 (by decide) (by decide) (by decide) (Workers.get_execution w) hresE1
  set s3 := slaUpdate (sla iterE) (stepFinish "execution" (stepBegin "execution"
    (appendRoute (retryGate "execution" (some "planner") sE) "execution")) resE1) with hs3
  have hg3 : gateFires "execution" (some "planner") sE = false := by simp [gateFires]
  have f3 : s3.retry_count = 0 ∧ s3.max_retries = 1
      ∧ s3.route_history = ["intake", "planner", "execution"] := by
    refine ⟨?_, ?_, ?_⟩ <;>
      simp [hs3, stepFinish, stepBegin, appendRoute, retryGate_retry_count,
        effRetry_gate_false hg3, hrc, hmax, hrh]
  rw [show determine_next_step "execution" s3 = "qa" from by simp [determine_next_step]]
    at hit3
  have hg4 : gateFires "qa" (some "execution") s3 = false := gateFires_ne_exec _ _ (by decide)
  have hin4 : (stepBegin "qa"
      (appendRoute (retryGate "qa" (some "execution") s3) "qa")).retry_count = 0 := by
    rw [workerInput_retry_count, effRetry_gate_false hg4]
    exact f3.1
  obtain ⟨resQ1, hresQ1, hq1⟩ := hqa0 _ hin4
  have hit4 := loopIter_eval w true sla (iterE + 1) "qa" (some "execution") s3 w.qa resQ1
    (by decide) (by decide) (by decide) (Workers.get_qa w) hresQ1
  set s4 := slaUpdate (sla (iterE + 1)) (stepFinish "qa" (stepBegin "qa"
    (appendRoute (retryGate "qa" (some "execution") s3) "qa")) resQ1) with hs4
  have f4 : s4.qa_result_status = some "fail" ∧ s4.retry_count = 0 ∧ s4.max_retries = 1
      ∧ s4.route_history = ["intake", "planner", "execution", "qa"] := by
    refine ⟨?_, ?_, ?_, ?_⟩ <;>
      simp [hs4, stepFinish, stepBegin, appendRoute, retryGate_retry_count,
        effRetry_gate_false hg4, mergeResult_qa_status, hq1, f3.1, f3.2.1, f3.2.2]
  rw [show determine_next_step "qa" s4 = "execution" from by
    simp [determine_next_step, f4.1, f4.2.1, f4.2.2.1]] at hit4
  have hg5 : gateFires "execution" (some "qa") s4 = true := by
    rw [gateFires_iff]
    refine ⟨rfl, Or.inl rfl, by simp [retryCondition, qaFailed, f4.1], ?_⟩
    rw [f4.2.1, f4.2.2.1]
    omega
  obtain ⟨resE2, hresE2⟩ := hex (stepBegin "execution"
    (appendRoute (retryGate "execution" (some "qa") s4) "execution"))
  have hit5 := loopIter_eval w true sla (iterE + 2) "execution" (some "qa") s4 w.execution
    resE2 (by decide) (by decide) (by decide) (Workers.get_execution w) hresE2
  set s5 := slaUpdate (sla (iterE + 2)) (stepFinish "execution" (stepBegin "execution"
    (appendRoute (retryGate "execution" (some "qa") s4) "execution")) resE2) with hs5
  have f5 : s5.retry_count = 1 ∧ s5.max_retries = 1
      ∧ s5.route_history = ["intake", "planner", "execution", "qa", "execution"] := by
    refine ⟨?_, ?_, ?_⟩ <;>
      simp [hs5, stepFinish, stepBegin, appendRoute, retryGate_retry_count,
        effRetry_gate_true hg5, f4.2.1, f4.2.2.1, f4.2.2.2]
  rw [show determine_next_step "execution" s5 = "qa" from by simp [determine_next_step]]
    at hit5
  have hg6 : gateFires "qa" (some "execution") s5 = false := gateFires_ne_exec _ _ (by decide)
  have hin6 : (stepBegin "qa"
      (appendRoute (retryGate "qa" (some "execution") s5) "qa")).retry_count = 1 := by
    rw [workerInput_retry_count, effRetry_gate_false hg6]
    exact f5.1
  obtain ⟨resQ2, hresQ2, hq2⟩ := hqa1 _ (by rw [hin6]; omega)
  have hit6 := loopIter_eval w true sla (iterE + 3) "qa" (some "execution") s5 w.qa resQ2
    (by decide) (by decide) (by decide) (Workers.get_qa w) hresQ2
  set s6 := slaUpdate (sla (iterE + 3)) (stepFinish "qa" (stepBegin "qa"
    (appendRoute (retryGate "qa" (some "execution") s5) "qa")) resQ2) with hs6
  have f6 : s6.qa_result_status = some "pass" ∧ s6.retry_count = 1 ∧ s6.max_retries = 1
      ∧ s6.route_history = ["intake", "planner", "execution", "qa", "execution", "qa"] := by
    refine ⟨?_, ?_, ?_, ?_⟩ <;>
      simp [hs6, stepFinish, stepBegin, appendRoute, retryGate_retry_count,
        effRetry_gate_false hg6, mergeResult_qa_status, hq2, f5.1, f5.2.1, f5.2.2]
  rw [show determine_next_step "qa" s6 = "judge" from by
    simp [determine_next_step, f6.1]] at hit6
  obtain ⟨resJ, hresJ⟩ := hj (stepBegin "judge"
    (appendRoute (retryGate "judge" (some "qa") s6) "judge"))
  have hit7 := loopIter_eval w true sla (iterE + 4) "judge" (some "qa") s6 w.judge resJ
    (by decide) (by decide) (by decide) (Workers.get_judge w) hresJ
  set s7 := slaUpdate (sla (iterE + 4)) (stepFinish "judge" (stepBegin "judge"
    (appendRoute (retryGate "judge" (some "qa") s6) "judge")) resJ) with hs7
  have hg7 : gateFires "judge" (some "qa") s6 = false := gateFires_ne_exec _ _ (by decide)
  have f7 : s7.retry_count = 1 ∧ s7.max_retries = 1
      ∧ s7.route_history
        = ["intake", "planner", "execution", "qa", "execution", "qa", "judge"] := by
    refine ⟨?_, ?_, ?_⟩ <;>
      simp [hs7, stepFinish, stepBegin, appendRoute, retryGate_retry_count,
        effRetry_gate_false hg7, f6.2.1, f6.2.2.1, f6.2.2.2]
  rw [show determine_next_step "judge" s7 = "delivery" from by
    unfold determine_next_step
    simp only [String.reduceEq, reduceIte]
    rw [if_neg ?_]
    rintro ⟨-, hlt⟩
    rw [f7.1, f7.2.1] at hlt
    omega] at hit7
  refine ⟨s7, ?_, f7.1, f7.2.2⟩
  rw [show n + 6 = (n + 5) + 1 from rfl, runLoop_succ, hit3]
  show runLoop w true sla (n + 5) (iterE + 1) "qa" (some "execution") s3
    = .exited "delivery" s7
  rw [show n + 5 = (n + 4) + 1 from rfl, runLoop_succ, hit4]
  show runLoop w true sla (n + 4) (iterE + 2) "execution" (some "qa") s4
    = .exited "delivery" s7
  rw [show n + 4 = (n + 3) + 1 from rfl, runLoop_succ, hit5]
  show runLoop w true sla (n + 3) (iterE + 3) "qa" (some "execution") s5
    = .exited "delivery" s7
  rw [show n + 3 = (n + 2) + 1 from rfl, runLoop_succ, hit6]
  show runLoop w true sla (n + 2) (iterE + 4) "judge" (some "qa") s6
    = .exited "delivery" s7
  rw [show n + 2 = (n + 1) + 1 from rfl, runLoop_succ, hit7]
  show runLoop w true sla (n + 1) (iterE + 5) "delivery" (some "judge") s7
    = .exited "delivery" s7
  rw [runLoop_succ, loopIter_delivery_eval]

/-! ## C7: the forced-failure test mode -/

/-- C7: For every request with max_retries = 1 run under auto-approve,
with workers that succeed and a QA worker that reports fail on its first
call (retry_count 0) and pass on the retry, the run terminates with
status completed, retry_count 1, and a route history containing execution
exactly twice and qa exactly twice. -/
theorem C7_forced_failure (w : Workers) (sla : Nat → Bool) (r : Request)
    (hmax : r.max_retries = 1)
    (hi : ∀ st, ∃ res, w.intake st = .ok res)
    (hp : ∀ st, ∃ res, w.planner st = .ok res)
    (hqa0 : ∀ st, st.retry_count = 0 → ∃ res, w.qa st = .ok res ∧ res.qa_status = some "fail")
    (hqa1 : ∀ st, st.retry_count ≠ 0 → ∃ res, w.qa st = .ok res ∧ res.qa_status = some "pass")
    (hex : ∀ st, ∃ res, w.execution st = .ok res)
    (hj : ∀ st, ∃ res, w.judge st = .ok res)
    (hd : ∀ st, ∃ res, w.delivery st = .ok res) :
    ∃ out, orchestrateE w true sla r = some out
      ∧ out.state.status = .completed
      ∧ out.state.retry_count = 1
      ∧ out.state.route_history.count "execution" = 2
      ∧ out.state.route_history.count "qa" = 2 := by
  obtain ⟨res0, hres0⟩ :=
    hi (stepBegin "intake" (appendRoute (retryGate "intake" none (initState r)) "intake"))
  have hit0 := loopIter_eval w true sla 0 "intake" none (initState r) w.intake res0
    (by decide) (by decide) (by decide) (Workers.get_intake w) hres0
  set s1 := slaUpdate (sla 0) (stepFinish "intake"
    (stepBegin "intake" (appendRoute (retryGate "intake" none (initState r)) "intake"))
    res0) with hs1
  rw [show determine_next_step "intake" s1 = "planner" from by
    simp [determine_next_step]] at hit0
  obtain ⟨res1, hres1⟩ :=
    hp (stepBegin "planner" (appendRoute (retryGate "planner" (some "intake") s1) "planner"))
  have hit1 := loopIter_eval w true sla 1 "planner" (some "intake") s1 w.planner res1
    (by decide) (by decide) (by decide) (Workers.get_planner w) hres1
  set s2 := slaUpdate (sla 1) (stepFinish "planner"
    (stepBegin "planner" (appendRoute (retryGate "planner" (some "intake") s1) "planner"))
    res1) with hs2
  have hg0 : gateFires "intake" none (initState r) = false :=
    gateFires_ne_exec _ _ (by decide)
  have hg1 : gateFires "planner" (some "intake") s1 = false :=
    gateFires_ne_exec _ _ (by decide)
  have f1 : s1.retry_count = 0 ∧ s1.max_retries = 1 ∧ s1.route_history = ["intake"] := by
    have h0 : (initState r).retry_count = 0 := by simp [initState]
    have h1 : (initState r).max_retries = 1 := by simp [initState, hmax]
    have h2 : (initState r).route_history = [] := by simp [initState]
    refine ⟨?_, ?_, ?_⟩ <;>
      simp [hs1, stepFinish, stepBegin, appendRoute, retryGate_retry_count,
        effRetry_gate_false hg0, h0, h1, h2]
  have f2 : s2.retry_count = 0 ∧ s2.max_retries = 1
      ∧ s2.route_history = ["intake", "planner"] := by
    refine ⟨?_, ?_, ?_⟩ <;>
      simp [hs2, stepFinish, stepBegin, appendRoute, retryGate_retry_count,
        effRetry_gate_false hg1, f1.1, f1.2.1, f1.2.2]
  have key : ∃ s7, runLoop w true sla (fuelFor r) 0 "intake" none (initState r)
      = .exited "delivery" s7
      ∧ s7.retry_count = 1
      ∧ s7.route_history
        = ["intake", "planner", "execution", "qa", "execution", "qa", "judge"] := by
    by_cases hbr : s2.requires_approval = true ∧ s2.approval_granted = none
    · rw [show determine_next_step "planner" s2 = "pause_for_approval" from by
        simp [determine_next_step, hbr.1, hbr.2]] at hit1
      have hit2 := loopIter_autoapprove_eval w sla 2 (some "planner") s2
      set sE := autoApproveUpd s2 with hsE
      have fE : sE.retry_count = 0 ∧ sE.max_retries = 1
          ∧ sE.route_history = ["intake", "planner"] := by
        refine ⟨?_, ?_, ?_⟩ <;> simp [hsE, autoApproveUpd, f2.1, f2.2.1, f2.2.2]
      obtain ⟨s7, hrun7, hrc7, hrh7⟩ :=
        qaRetryTail w sla 2 5 sE fE.1 fE.2.1 fE.2.2 hqa0 hqa1 hex hj
      refine ⟨s7, ?_, hrc7, hrh7⟩
      rw [show fuelFor r = 13 + 1 from by unfold fuelFor; rw [hmax], runLoop_succ, hit0]
      show runLoop w true sla 13 1 "planner" (some "intake") s1 = .exited "delivery" s7
      rw [show (13 : Nat) = 12 + 1 from rfl, runLoop_succ, hit1]
      show runLoop w true sla 12 2 "pause_for_approval" (some "planner") s2
        = .exited "delivery" s7
      rw [show (12 : Nat) = 11 + 1 from rfl, runLoop_succ, hit2]
      show runLoop w true sla 11 2 "execution" (some "planner") sE = .exited "delivery" s7
      exact hrun7
    · rw [show determine_next_step "planner" s2 = "execution" from by
        simp only [determine_next_step, String.reduceEq, reduceIte, if_neg hbr]] at hit1
      obtain ⟨s7, hrun7, hrc7, hrh7⟩ :=
        qaRetryTail w sla 2 6 s2 f2.1 f2.2.1 f2.2.2 hqa0 hqa1 hex hj
      refine ⟨s7, ?_, hrc7, hrh7⟩
      rw [show fuelFor r = 13 + 1 from by unfold fuelFor; rw [hmax], runLoop_succ, hit0]
      show runLoop w true sla 13 1 "planner" (some "intake") s1 = .exited "delivery" s7
      rw [show (13 : Nat) = 12 + 1 from rfl, runLoop_succ, hit1]
      show runLoop w true sla 12 2 "execution" (some "planner") s2 = .exited "delivery" s7
      exact hrun7
  obtain ⟨s7, hrun, hrc7, hrh7⟩ := key
  obtain ⟨resD, hresD⟩ := hd (stepBegin "delivery" (deliveryEnter s7))
  have hdel := executeStep_delivery_eval w (deliveryEnter s7) resD hresD
  set st := stepFinish "delivery" (stepBegin "delivery" (deliveryEnter s7)) resD with hst
  have hfin : finalize w "delivery" s7
      = { state := finishRun st,
          rsLog := [(deliveryEnter s7).run_status, (finishRun st).run_status],
          raisedMsg := none } := by
    rw [finalize_delivery_eq, hdel]
  have hstrc : st.retry_count = 1 := by
    rw [hst]
    simp [stepFinish, stepBegin, deliveryEnter, hrc7]
  have hstrh : st.route_history
      = ["intake", "planner", "execution", "qa", "execution", "qa", "judge", "delivery"] := by
    rw [hst]
    simp [stepFinish, stepBegin, deliveryEnter, hrh7]
  refine ⟨finalize w "delivery" s7, by unfold orchestrateE; rw [hrun], ?_, ?_, ?_, ?_⟩
  · rw [hfin]
    exact (finishRun_facts st).1
  · rw [hfin]
    show (finishRun st).retry_count = 1
    rw [(finishRun_facts st).2.2.2.1]
    exact hstrc
  · rw [hfin]
    show (finishRun st).route_history.count "execution" = 2
    rw [(finishRun_facts st).2.2.1, hstrh]
    decide
  · rw [hfin]
    show (finishRun st).route_history.count "qa" = 2
    rw [(finishRun_facts st).2.2.1, hstrh]
    decide

/-- Witness for C7: the concrete fail-once QA registry run under
auto-approve with the default request (max_retries 1) completes with one
retry and the doubled execution/qa entries. -/
theorem C7_forced_failure_witness :
    ∃ out, orchestrateE cwQaFailOnce true slaOff reqDefault = some out
      ∧ out.state.status = .completed
      ∧ out.state.retry_count = 1
      ∧ out.state.route_history.count "execution" = 2
      ∧ out.state.route_history.count "qa" = 2 :=
  C7_forced_failure cwQaFailOnce slaOff reqDefault rfl
    (fun _ => ⟨{}, rfl⟩)
    (fun _ => ⟨{}, rfl⟩)
    (fun st h => ⟨{ qa_status := some (if st.retry_count = 0 then "fail" else "pass") },
      rfl, by
        show some (if st.retry_count = 0 then "fail" else "pass") = some "fail"
        rw [if_pos h]⟩)
    (fun st h => ⟨{ qa_status := some (if st.retry_count = 0 then "fail" else "pass") },
      rfl, by
        show some (if st.retry_count = 0 then "fail" else "pass") = some "pass"
        rw [if_neg h]⟩)
    (fun _ => ⟨{}, rfl⟩)
    (fun _ => ⟨{ judge_action := some "accept" }, rfl⟩)
    (fun _ => ⟨{}, rfl⟩)

/-! ## C5: the canonical-path prefix invariant -/

theorem retryPairs_ext_d (rh : List String) :
    retryPairs (rh ++ ["delivery"]) = retryPairs rh := by
  rw [retryPairs_snoc]
  simp

theorem retryPairs_ext_jd (rh : List String) :
    retryPairs (rh ++ ["judge", "delivery"]) = retryPairs rh := by
  rw [show rh ++ ["judge", "delivery"] = (rh ++ ["judge"]) ++ ["delivery"] by simp]
  rw [retryPairs_snoc, retryPairs_snoc]
  simp

theorem retryPairs_ext_qjd (rh : List String) :
    retryPairs (rh ++ ["qa", "judge", "delivery"]) = retryPairs rh := by
  rw [show rh ++ ["qa", "judge", "delivery"]
    = ((rh ++ ["qa"]) ++ ["judge"]) ++ ["delivery"] by simp]
  rw [retryPairs_snoc, retryPairs_snoc, retryPairs_snoc]
  simp

/-- Every route history allowed by the position grammar, with its retry
pairs within budget, is a prefix of a member of the corrected canonical
family whose completed path stays within budget: each position completes
to a full path by a short tail that starts with no execution entry, so
completion adds no retry pair. -/
theorem Pos_RhOk {cur : String} {rh : List String} (hpos : Pos cur rh)
    {maxR : Nat} (hrc : retryPairs rh ≤ maxR) : RhOk rh maxR := by
  have c0 : retryPairs (canonicalPathFixed false [0]) = 0 := by decide
  have c1 : retryPairs (canonicalPathFixed true [0]) = 0 := by decide
  rcases hpos with ⟨-, h⟩ | ⟨-, h⟩ | ⟨-, h⟩ | ⟨-, ks, m, h⟩ | ⟨-, ks, m, h⟩
    | ⟨-, ks, m, h⟩ | ⟨-, ks, hne, h⟩
  · exact ⟨false, [0], by simp, ⟨canonicalPathFixed false [0], by rw [h]; rfl⟩,
      by rw [c0]; exact Nat.zero_le _⟩
  · refine ⟨false, [0], by simp,
      ⟨["planner", "execution", "qa", "judge", "delivery"], ?_⟩,
      by rw [c0]; exact Nat.zero_le _⟩
    rw [h]
    decide
  · refine ⟨true, [0], by simp,
      ⟨["pause_for_approval", "execution", "qa", "judge", "delivery"], ?_⟩,
      by rw [c1]; exact Nat.zero_le _⟩
    rw [h]
    decide
  · rcases m with _ | m2
    · rcases ks with _ | ⟨k, ks2⟩
      · refine ⟨false, [0], by simp,
          ⟨["execution", "qa", "judge", "delivery"], ?_⟩,
          by rw [c0]; exact Nat.zero_le _⟩
        rw [h]
        decide
      · have hcan : canonicalPathFixed false (k :: ks2) = rh ++ ["delivery"] := by
          rw [h]
          simp [canonicalPathFixed, pairsL]
        exact ⟨false, k :: ks2, by simp, ⟨["delivery"], hcan.symm⟩,
          by rw [hcan, retryPairs_ext_d]; exact hrc⟩
    · have hcan : canonicalPathFixed false (ks ++ [m2])
          = rh ++ ["judge", "delivery"] := by
        rw [h]
        simp [canonicalPathFixed, blocksJoin_snoc]
      exact ⟨false, ks ++ [m2], by simp, ⟨["judge", "delivery"], hcan.symm⟩,
        by rw [hcan, retryPairs_ext_jd]; exact hrc⟩
  · have hcan : canonicalPathFixed false (ks ++ [m])
        = rh ++ ["qa", "judge", "delivery"] := by
      rw [h]
      simp [canonicalPathFixed, blocksJoin_snoc, pairsL_snoc]
    exact ⟨false, ks ++ [m], by simp, ⟨["qa", "judge", "delivery"], hcan.symm⟩,
      by rw [hcan, retryPairs_ext_qjd]; exact hrc⟩
  · have hcan : canonicalPathFixed false (ks ++ [m])
        = rh ++ ["judge", "delivery"] := by
      rw [h]
      simp [canonicalPathFixed, blocksJoin_snoc]
    exact ⟨false, ks ++ [m], by simp, ⟨["judge", "delivery"], hcan.symm⟩,
      by rw [hcan, retryPairs_ext_jd]; exact hrc⟩
  · have hcan : canonicalPathFixed false ks = rh ++ ["delivery"] := by
      rw [h]
      simp [canonicalPathFixed]
    exact ⟨false, ks, hne, ⟨["delivery"], hcan.symm⟩,
      by rw [hcan, retryPairs_ext_d]; exact hrc⟩

/-- C5 counterexample: a run with retry budget two, a judge that always
retries and a QA that fails exactly on retry_count 1 produces the route
history [intake, planner, execution, qa, judge, execution, qa, execution,
qa, judge, delivery], which is not a prefix of any member of the canonical
family claimed by the spec, [intake, planner, (pause_for_approval)?,
execution, qa, (execution, qa)*, judge, (execution, qa, judge)*,
delivery]: the second judge visit is preceded by two (execution, qa)
pairs, which the claimed family only allows before the first judge
visit. -/
theorem C5_canonical_prefix_counterexample :
    orchestrateE cwMixedRetry true slaOff reqTwoRetries = some c5Out
    ∧ c5Out.state.route_history
      = ["intake", "planner", "execution", "qa", "judge",
         "execution", "qa", "execution", "qa", "judge", "delivery"]
    ∧ ∀ p k1 k2, ¬ listPrefix c5Out.state.route_history (claimedCanonicalPath p k1 k2) := by
  refine ⟨by decide, by decide, ?_⟩
  intro p k1 k2
  rw [show c5Out.state.route_history
    = ["intake", "planner", "execution", "qa", "judge",
       "execution", "qa", "execution", "qa", "judge", "delivery"] from by decide]
  rintro ⟨t, h⟩
  cases p
  · rcases k1 with _ | m
    · rcases k2 with _ | n
      · simp [claimedCanonicalPath, pairsL, triplesL] at h
      · simp [claimedCanonicalPath, pairsL, triplesL] at h
    · simp [claimedCanonicalPath, pairsL] at h
  · simp [claimedCanonicalPath] at h

/-- Appending the current step to a grammar-conformant route history (as
the loop does right before executing a step, and as the delivery block
does after the loop) keeps it a prefix of the corrected canonical family,
again because the completed path adds no retry pair beyond those of the
extended history. -/
theorem Pos_RhOk_snoc {cur : String} {rh : List String} (hpos : Pos cur rh)
    (hcur : cur ≠ "pause_for_approval")
    {maxR : Nat} (hrc : retryPairs (rh ++ [cur]) ≤ maxR) :
    RhOk (rh ++ [cur]) maxR := by
  have c0 : retryPairs (canonicalPathFixed false [0]) = 0 := by decide
  rcases hpos with ⟨hc, h⟩ | ⟨hc, h⟩ | ⟨hc, h⟩ | ⟨hc, ks, m, h⟩ | ⟨hc, ks, m, h⟩
    | ⟨hc, ks, m, h⟩ | ⟨hc, ks, hne, h⟩
  · subst hc
    refine ⟨false, [0], by simp,
      ⟨["planner", "execution", "qa", "judge", "delivery"], ?_⟩,
      by rw [c0]; exact Nat.zero_le _⟩
    rw [h]
    decide
  · subst hc
    refine ⟨false, [0], by simp,
      ⟨["execution", "qa", "judge", "delivery"], ?_⟩,
      by rw [c0]; exact Nat.zero_le _⟩
    rw [h]
    decide
  · exact absurd hc hcur
  · subst hc
    have hcan : canonicalPathFixed false (ks ++ [m])
        = (rh ++ ["execution"]) ++ ["qa", "judge", "delivery"] := by
      rw [h]
      simp [canonicalPathFixed, blocksJoin_snoc, pairsL_snoc]
    exact ⟨false, ks ++ [m], by simp, ⟨["qa", "judge", "delivery"], hcan.symm⟩,
      by rw [hcan, retryPairs_ext_qjd]; exact hrc⟩
  · subst hc
    have hcan : canonicalPathFixed false (ks ++ [m])
        = (rh ++ ["qa"]) ++ ["judge", "delivery"] := by
      rw [h]
      simp [canonicalPathFixed, blocksJoin_snoc, pairsL_snoc]
    exact ⟨false, ks ++ [m], by simp, ⟨["judge", "delivery"], hcan.symm⟩,
      by rw [hcan, retryPairs_ext_jd]; exact hrc⟩
  · subst hc
    have hcan : canonicalPathFixed false (ks ++ [m])
        = (rh ++ ["judge"]) ++ ["delivery"] := by
      rw [h]
      simp [canonicalPathFixed, blocksJoin_snoc]
    exact ⟨false, ks ++ [m], by simp, ⟨["delivery"], hcan.symm⟩,
      by rw [hcan, retryPairs_ext_d]; exact hrc⟩
  · subst hc
    have hcan : canonicalPathFixed false ks = rh ++ ["delivery"] := by
      rw [h]
      simp [canonicalPathFixed]
    exact ⟨false, ks, hne, ⟨[], by rw [List.append_nil]; exact hcan.symm⟩,
      by rw [hcan]; exact hrc⟩

/-- Every state record orchestrate hands back — paused, failed on a
raising worker, failed on a raising delivery step, or completed — carries
a route history that is a prefix of the corrected canonical family within
the retry budget. -/
theorem orchestrateE_RhOk (w : Workers) (auto : Bool) (sla : Nat → Bool) (r : Request)
    {out : FinalOut} (h : orchestrateE w auto sla r = some out) :
    RhOk out.state.route_history out.state.max_retries := by
  rcases orchestrateE_cases w auto sla r h with
    ⟨prev0, s0, inv0, -, hout⟩
    | ⟨msg, cur0, prev0, s0, st, inv0, -, hdel, hpau, hex, hout⟩
    | ⟨prev0, s0, inv0, hout⟩
  · subst hout
    obtain ⟨-, -, -, -, hp5, -, hp7, -⟩ := pauseUpd_facts s0
    show RhOk (pauseUpd s0).route_history (pauseUpd s0).max_retries
    rw [hp5, hp7]
    refine Pos_RhOk inv0.pos ?_
    rw [← inv0.rc_pairs]
    exact inv0.rc_le
  · subst hout
    obtain ⟨hrc, hmr, hrh, -⟩ := raisedState_facts inv0 hex
    obtain ⟨-, -, -, -, hf5, hf6, hf7, -, -⟩ := failHandler_facts msg st
    show RhOk (failHandler msg st).route_history (failHandler msg st).max_retries
    rw [hf5, hf7, hrh, hmr]
    refine Pos_RhOk_snoc inv0.pos hpau ?_
    rw [← effRetry_pairs inv0]
    exact effRetry_le _ _ _ inv0.rc_le
  · subst hout
    rw [finalize_delivery_eq]
    obtain ⟨hd1, -, hd3, -, -, -, -⟩ := deliveryEnter_facts s0
    rcases hex : executeStep w "delivery" (deliveryEnter s0) with ⟨msg, st⟩ | st
    · obtain ⟨-, -, hmr1, hrh1, -, -, -, -, -, -⟩ := executeStep_error_frame _ _ _ _ _ hex
      obtain ⟨-, -, -, -, hf5, -, hf7, -, -⟩ := failHandler_facts msg st
      show RhOk (failHandler msg st).route_history (failHandler msg st).max_retries
      rw [hf5, hf7, hrh1, hmr1, hd1, hd3]
      refine Pos_RhOk_snoc inv0.pos (by decide) ?_
      rw [retryPairs_ext_d, ← inv0.rc_pairs]
      exact inv0.rc_le
    · obtain ⟨-, -, -, -, -, -, hmr1, hrh1, -, -, -⟩ := executeStep_delivery_ok _ _ _ hex
      obtain ⟨-, -, hg3, -, hg5, -, -⟩ := finishRun_facts st
      show RhOk (finishRun st).route_history (finishRun st).max_retries
      rw [hg3, hg5, hrh1, hmr1, hd1, hd3]
      refine Pos_RhOk_snoc inv0.pos (by decide) ?_
      rw [retryPairs_ext_d, ← inv0.rc_pairs]
      exact inv0.rc_le

theorem c5Out_eq : orchestrateE cwMixedRetry true slaOff reqTwoRetries = some c5Out := by
  decide

/-- C5 (amended): for every run and every behavior of the step workers,
route_history is at every point — at every configuration the supervisor
loop reaches at the top of its while loop, and in every state record
orchestrate hands back, including the completed history ending in
delivery and the failure-path histories — a prefix of a member of the
corrected canonical family [intake, planner, (pause_for_approval)?,
(execution, qa, (execution, qa)*, judge)+, delivery] whose completed path
carries at most max_retries retry re-entries. -/
theorem C5_canonical_prefix (w : Workers) (auto : Bool) (sla : Nat → Bool) (r : Request) :
    (∀ iter cur prev s, LoopReach w auto sla r iter cur prev s →
      RhOk s.route_history s.max_retries)
    ∧ (∀ out, orchestrateE w auto sla r = some out →
      RhOk out.state.route_history out.state.max_retries) := by
  constructor
  · intro iter cur prev s hr
    have inv := LoopReach_inv hr
    refine Pos_RhOk inv.pos ?_
    rw [← inv.rc_pairs]
    exact inv.rc_le
  · intro out h
    exact orchestrateE_RhOk w auto sla r h

/-- Witness for C5: the loop-top configuration after the first pass of the
benign run, and the returned record of the mixed-retry run (whose history
is the counterexample trace ending in delivery), both satisfy the
corrected prefix invariant. -/
theorem C5_canonical_prefix_witness :
    RhOk (nextOf (loopIter cwOk false slaOff 0 "intake" none
        (initState reqDefault))).2.2.2.route_history
      (nextOf (loopIter cwOk false slaOff 0 "intake" none
        (initState reqDefault))).2.2.2.max_retries
    ∧ RhOk c5Out.state.route_history c5Out.state.max_retries :=
  ⟨( C5_canonical_prefix cwOk false slaOff reqDefault).1
      (nextOf (loopIter cwOk false slaOff 0 "intake" none (initState reqDefault))).1
      (nextOf (loopIter cwOk false slaOff 0 "intake" none (initState reqDefault))).2.1
      (nextOf (loopIter cwOk false slaOff 0 "intake" none (initState reqDefault))).2.2.1
      (nextOf (loopIter cwOk false slaOff 0 "intake" none (initState reqDefault))).2.2.2
      (LoopReach.step LoopReach.init (by decide)),
    ( C5_canonical_prefix cwMixedRetry true slaOff reqTwoRetries).2 c5Out c5Out_eq⟩

/-! ## C1: the router -/

/-- C1: The Router is a pure, total function of (current step name, state)
— in this embedding determine_next_step is a pure Lean function of exactly
those arguments and returns only a step name, so it cannot mutate the
state; the Python source likewise only reads state fields.  It returns
"planner" after "intake"; after "planner" it returns "pause_for_approval"
iff the planner result requested approval (merged into
state.requires_approval) and approval_granted is unset, else "execution";
"qa" after "execution"; after "qa" it returns "execution" iff the QA
status is fail and retry_count < max_retries, else "judge"; after "judge"
it returns "execution" iff the judge action is retry and retry_count <
max_retries, else "delivery"; "end" after "delivery"; and "end" for any
other step name. -/
theorem C1_router_rules (s : WorkflowState) (cur : String) :
    determine_next_step "intake" s = "planner"
    ∧ (determine_next_step "planner" s = "pause_for_approval" ↔
        s.requires_approval = true ∧ s.approval_granted = none)
    ∧ (determine_next_step "planner" s ≠ "pause_for_approval" →
        determine_next_step "planner" s = "execution")
    ∧ determine_next_step "execution" s = "qa"
    ∧ (determine_next_step "qa" s = "execution" ↔
        s.qa_result_status = some "fail" ∧ s.retry_count < s.max_retries)
    ∧ (determine_next_step "qa" s ≠ "execution" → determine_next_step "qa" s = "judge")
    ∧ (determine_next_step "judge" s = "execution" ↔
        strLower (s.judge_result_action.getD "accept") = "retry"
          ∧ s.retry_count < s.max_retries)
    ∧ (determine_next_step "judge" s ≠ "execution" →
        determine_next_step "judge" s = "delivery")
    ∧ determine_next_step "delivery" s = "end"
    ∧ (cur ∉ ["intake", "planner", "execution", "qa", "judge", "delivery",
        "pause_for_approval"] → determine_next_step cur s = "end") := by
  refine ⟨by simp [determine_next_step], ?_, ?_, by simp [determine_next_step],
    ?_, ?_, ?_, ?_, by simp [determine_next_step], ?_⟩
  · simp only [determine_next_step]
    split <;> simp_all
  · simp only [determine_next_step]
    split <;> simp_all
  · simp only [determine_next_step]
    split <;> simp_all
  · simp only [determine_next_step]
    split <;> simp_all
  · simp only [determine_next_step]
    split <;> simp_all
  · simp only [determine_next_step]
    split <;> simp_all
  · intro h
    simp only [List.mem_cons, List.mem_singleton] at h
    push_neg at h
    obtain ⟨h1, h2, h3, h4, h5, h6, h7⟩ := h
    simp [determine_next_step, h1, h2, h3, h4, h5, h6]

/-- Witness for C1 at a concrete state and a step name outside the fixed
step set. -/
theorem C1_router_rules_witness :
    determine_next_step "intake" {} = "planner"
    ∧ determine_next_step "frobnicate" ({} : WorkflowState) = "end" :=
  ⟨(C1_router_rules {} "frobnicate").1,
    (C1_router_rules {} "frobnicate").2.2.2.2.2.2.2.2.2 (by decide)⟩

/-! ## C4: run-status derivation -/

/-- C4: The run-status derivation returns "failed" when status is failed;
otherwise "paused" when status is paused; otherwise
"completed_with_warnings" exactly when errors is non-empty, or warnings is
non-empty, or the last QA status is fail, or the last judge action differs
from accept, or retry_count > 0; otherwise "completed".  It is a pure read:
in this embedding deriveRunStatus returns only a string and takes the state
by value, so it leaves every field (in particular errors and warnings)
unchanged; the Python source likewise only reads fields. -/
theorem C4_derive_run_status (s : WorkflowState) :
    (s.status = .failed → deriveRunStatus s = "failed")
    ∧ (s.status ≠ .failed → s.status = .paused → deriveRunStatus s = "paused")
    ∧ (s.status ≠ .failed → s.status ≠ .paused →
        (deriveRunStatus s = "completed_with_warnings" ↔
          s.errors ≠ [] ∨ s.warnings ≠ [] ∨ qaFailed s = true
          ∨ strLower (s.judge_result_action.getD "accept") ≠ "accept"
          ∨ 0 < s.retry_count))
    ∧ (s.status ≠ .failed → s.status ≠ .paused →
        deriveRunStatus s = "completed_with_warnings" ∨ deriveRunStatus s = "completed") := by
  refine ⟨fun h => by simp [deriveRunStatus, h], fun h1 h2 => by simp [deriveRunStatus, h1, h2],
    fun h1 h2 => ?_, fun h1 h2 => ?_⟩
  · simp only [deriveRunStatus, if_neg h1, if_neg h2]
    split <;> simp_all
  · simp only [deriveRunStatus, if_neg h1, if_neg h2]
    split <;> simp

/-- Witness for C4: a non-terminal state with a warning derives
completed_with_warnings, and a clean completed state derives completed. -/
theorem C4_derive_run_status_witness :
    deriveRunStatus { status := .completed, warnings := ["w"] } = "completed_with_warnings"
    ∧ deriveRunStatus { status := .completed } = "completed" := by
  constructor
  · exact ((C4_derive_run_status _).2.2.1 (by decide) (by decide)).mpr (by decide)
  · rcases (C4_derive_run_status { status := .completed }).2.2.2 (by decide) (by decide)
      with h | h
    · exact absurd (((C4_derive_run_status _).2.2.1 (by decide) (by decide)).mp h) (by decide)
    · exact h

end PdfTranslator
